import Mathlib

/-!
# LinkM firmware: the command dispatcher `handleMessage` and the transfer functions

A shallow embedding of `firmware/main.c` (USB HID to I2C adapter).  The firmware's
global variables become the fields of `State`, and a function of `main.c` becomes a
function on `State`.  Bytes are natural numbers, reduced modulo 256 wherever the C code
stores into or reads from an 8-bit object.

Two things of the C program are not state of the microcontroller's RAM and are made
explicit here:

* the calls the firmware makes to its collaborators (the I2C driver of `i2cmaster.h`,
  the status LED, the bus-enable line) are appended, in order, to `State.trace`; what
  the driver returns is a parameter (`I2CMaster`) and may depend on all calls made so far;
* the offsets at which `msgbuf` is read and `outmsgbuf` is written are appended to
  `State.msgReads` and `State.outWrites`.

The two buffers are modelled as memory seen from the base of the array (`Nat → Nat`):
offsets 0..15 are the array, larger offsets are whatever lies behind it.  The
if-else chain of `handleMessage` is split into one function per command branch.  The
debug output on the serial port (`printf`) is left out.

`usbFunctionSetup`, `usbFunctionWrite` and `usbFunctionRead` are embedded with the
constants of `usbdrv.h` as a parameter; a chunk is the list of its bytes and its length
is an 8-bit value.
-/

namespace LinkM

/-! ## Constants -/

/-- Size of the HID report and of both buffers: `#define REPORT_COUNT 16`. -/
def REPORT_COUNT : Nat := 16

/-- Modelled from the spec: `START_BYTE` of `linkm-lib.h`, a header that is not among the
sources; the sentinel byte is 0xDA (also in the header comment of `main.c`). -/
def START_BYTE : Nat := 0xDA

/-- Modelled from the spec: command code Transact(1) of `linkm-lib.h`. -/
def LINKM_CMD_I2CTRANS : Nat := 1

/-- Modelled from the spec: command code Write(2) of `linkm-lib.h`. -/
def LINKM_CMD_I2CWRITE : Nat := 2

/-- Modelled from the spec: command code Read(3) of `linkm-lib.h`. -/
def LINKM_CMD_I2CREAD : Nat := 3

/-- Modelled from the spec: command code BusScan(4) of `linkm-lib.h`. -/
def LINKM_CMD_I2CSCAN : Nat := 4

/-- Modelled from the spec: command code BusConnect(5) of `linkm-lib.h`. -/
def LINKM_CMD_I2CCONN : Nat := 5

/-- Modelled from the spec: command code BusInit(6) of `linkm-lib.h`. -/
def LINKM_CMD_I2CINIT : Nat := 6

/-- Modelled from the spec: command code SetIndicator(0x100) of `linkm-lib.h`. -/
def LINKM_CMD_STATLED : Nat := 0x100

/-- Modelled from the spec: command code GetIndicator(0x101) of `linkm-lib.h`. -/
def LINKM_CMD_STATLEDGET : Nat := 0x101

/-- Modelled from the spec: status code Ok(0) of `linkm-lib.h`. -/
def LINKM_ERR_NONE : Nat := 0

/-- Modelled from the spec: the error codes of `linkm-lib.h`, whose numeric values the
spec leaves to the implementation; they are a parameter of the dispatcher. -/
structure LinkmErr where
  LINKM_ERR_BADSTART : Nat
  LINKM_ERR_BADARGS : Nat
  LINKM_ERR_I2C : Nat
  LINKM_ERR_I2CREAD : Nat

/-- Bit number of the status LED in port B (`PB4` of `avr/io.h`). -/
def PB4 : Nat := 4

/-- Bit number of the I2C enable line in port B (`PB0` of `avr/io.h`). -/
def PB0 : Nat := 0

/-! ## Collaborators -/

/-- One call made by the firmware to a collaborator, with the value of its argument
expression (the `int` value at the call site, before any conversion to the parameter
type of the callee, whose declaration is not among the sources). -/
inductive Event where
  | i2c_start (arg : Nat)
  | i2c_rep_start (arg : Nat)
  | i2c_write (byte : Nat)
  | i2c_read (ack : Nat)
  | i2c_stop
  | i2c_init
  | delay_ms (ms : Nat)
  | statusLedSet (v : Nat)
  | i2cEnable (v : Nat)
  deriving DecidableEq, Repr

/-- The I2C bus driver declared in `i2cmaster.h` (not among the sources), taken as a
parameter: its two direction constants and, for each call that returns a value, the value
returned, which may depend on every call made so far and on the argument.
`i2c_start` and `i2c_rep_start` return 0 when the device acknowledged and 1 when it did
not; `i2c_read` returns the byte read, or -1 on a timeout. -/
structure I2CMaster where
  I2C_READ : Nat
  I2C_WRITE : Nat
  i2c_start : List Event → Nat → Nat
  i2c_rep_start : List Event → Nat → Nat
  i2c_read : List Event → Nat → Int

/-- Is this a call to the bus driver? -/
def Event.isBus : Event → Bool
  | .i2c_start _ => true
  | .i2c_rep_start _ => true
  | .i2c_write _ => true
  | .i2c_read _ => true
  | .i2c_stop => true
  | .i2c_init => true
  | _ => false

/-- Is this a call to the status LED (the indicator)? -/
def Event.isLed : Event → Bool
  | .statusLedSet _ => true
  | _ => false

/-! ## State -/

/-- The global variables of `main.c`, port B, and the two logs. -/
structure State where
  currentAddress : Nat
  bytesRemaining : Nat
  numWrites : Int
  msgbuf : Nat → Nat
  outmsgbuf : Nat → Nat
  PORTB : Nat
  trace : List Event
  msgReads : List Nat
  outWrites : List Nat

/-- Value of `mbufp[k]` (`mbufp` points to `msgbuf`), an 8-bit read. -/
def mbufp (s : State) (k : Nat) : Nat := s.msgbuf k % 256

/-- Value of `outmsgbuf[k]`, an 8-bit read. -/
def outbyte (s : State) (k : Nat) : Nat := s.outmsgbuf k % 256

/-- Record that `mbufp[k]` is read. -/
def rd (k : Nat) (s : State) : State :=
  { s with msgReads := s.msgReads ++ [k] }

/-- The assignment `outmsgbuf[k] = v`: an 8-bit store, recorded in `outWrites`. -/
def setOut (k v : Nat) (s : State) : State :=
  { s with
    outmsgbuf := fun j => if j = k then v % 256 else s.outmsgbuf j
    outWrites := s.outWrites ++ [k] }

/-- Record a call to a collaborator. -/
def call (e : Event) (s : State) : State :=
  { s with trace := s.trace ++ [e] }

/-- `void statusLedSet(int v)`: sets or clears bit `PB4` of port B. -/
def statusLedSet (v : Nat) (s : State) : State :=
  call (.statusLedSet v)
    { s with PORTB := if v ≠ 0 then (s.PORTB ||| (1 <<< PB4)) % 256
                      else s.PORTB &&& (0xFF ^^^ (1 <<< PB4)) }

/-- `uint8_t statusLedGet(void)`: `(PINB & (1<<PB4)) ? 1 : 0`; the pin is an output, so
the input register reads back what port B drives. -/
def statusLedGet (s : State) : Nat :=
  if s.PORTB &&& (1 <<< PB4) ≠ 0 then 1 else 0

/-- `void i2cEnable(int v)`: sets or clears bit `PB0` of port B. -/
def i2cEnable (v : Nat) (s : State) : State :=
  call (.i2cEnable v)
    { s with PORTB := if v ≠ 0 then (s.PORTB ||| (1 <<< PB0)) % 256
                      else s.PORTB &&& (0xFF ^^^ (1 <<< PB0)) }

/-! ## Loops of `handleMessage` -/

/-- A loop `for( uint8_t i = ..; i < bound; i++ ) body` without `break`: the bound is an
`int` expression, the counter is 8 bits wide.  `fuel` counts the values the counter can
still take. -/
def forU8 {σ : Type} (bound : Int) (body : Nat → σ → σ) : Nat → Nat → σ → σ
  | 0, _, x => x
  | fuel + 1, i, x =>
    if (i : Int) < bound then forU8 bound body fuel ((i + 1) % 256) (body i x) else x

/-- Body of the write loop of Transact and Write: `i2c_write( mbufp[5+i] );`.
Here and below `m k` is the value of `mbufp[k]`: no statement of `handleMessage` stores
into `msgbuf`, so the handlers receive the command bytes as the function `m`. -/
def sendBody (m : Nat → Nat) (i : Nat) (s : State) : State :=
  call (.i2c_write (m (5 + i))) (rd (5 + i) s)

/-- Body of the read loop of Read:
`uint8_t c = i2c_read( (i!=(num_recv-1)) ); outmsgbuf[2+i] = c;`. -/
def readBody (D : I2CMaster) (num_recv : Nat) (i : Nat) (s : State) : State :=
  let ack : Nat := if (i : Int) ≠ (num_recv : Int) - 1 then 1 else 0
  let c : Int := D.i2c_read s.trace ack
  setOut (2 + i) (c % 256).toNat (call (.i2c_read ack) s)

/-- The read loop of Transact, which leaves on a timeout:
`for( uint8_t i=0; i<num_recv; i++) { int c = i2c_read( (i!=(num_recv-1)) );
 if( c == -1 ) { outmsgbuf[1] = LINKM_ERR_I2CREAD; break; }  outmsgbuf[2+i] = c; }`. -/
def transRecvLoop (D : I2CMaster) (E : LinkmErr) (num_recv : Nat) : Nat → Nat → State → State
  | 0, _, s => s
  | fuel + 1, i, s =>
    if (i : Int) < (num_recv : Int) then
      let ack : Nat := if (i : Int) ≠ (num_recv : Int) - 1 then 1 else 0
      let c : Int := D.i2c_read s.trace ack
      let s := call (.i2c_read ack) s
      if c = -1 then setOut 1 E.LINKM_ERR_I2CREAD s
      else transRecvLoop D E num_recv fuel ((i + 1) % 256) (setOut (2 + i) (c % 256).toNat s)
    else s

/-- Body of the scan loop, on the pair (`numfound`, state):
`if( i2c_start( ((addr_start+a)<<1)|I2C_WRITE)==0 ) { outmsgbuf[3+numfound] = addr_start+a;
 numfound++; }  i2c_stop();`. -/
def scanBody (D : I2CMaster) (addr_start : Nat) (a : Nat) (p : Nat × State) : Nat × State :=
  let arg : Nat := ((addr_start + a) <<< 1) ||| D.I2C_WRITE
  let r : Nat := D.i2c_start p.2.trace arg
  let s := call (.i2c_start arg) p.2
  if r = 0 then (p.1 + 1, call .i2c_stop (setOut (3 + p.1) (addr_start + a) s))
  else (p.1, call .i2c_stop s)

/-! ## The dispatcher -/

/-- The branch `cmd == LINKM_CMD_I2CTRANS` of `handleMessage`. -/
def handleI2CTrans (D : I2CMaster) (E : LinkmErr) (m : Nat → Nat) (num_sent num_recv : Nat)
    (s : State) : State :=
  let addr := m 4
  let s := rd 4 s
  if addr ≥ 0x80 then setOut 1 E.LINKM_ERR_BADARGS s
  else
    let arg := (addr <<< 1) ||| D.I2C_WRITE
    let r := D.i2c_start s.trace arg
    let s := call (.i2c_start arg) s
    if r = 1 then call .i2c_stop (setOut 1 E.LINKM_ERR_I2C s)
    else
      let s := forU8 ((num_sent : Int) - 1) (sendBody m) 256 0 s
      let s :=
        if num_recv ≠ 0 then
          let s := statusLedSet 1 s
          let rarg := (addr <<< 1) ||| D.I2C_READ
          let r := D.i2c_rep_start s.trace rarg
          let s := call (.i2c_rep_start rarg) s
          let s :=
            if r = 1 then setOut 1 E.LINKM_ERR_I2CREAD s
            else transRecvLoop D E num_recv 256 0 s
          statusLedSet 0 s
        else s
      call .i2c_stop s

/-- The branch `cmd == LINKM_CMD_I2CWRITE` of `handleMessage`. -/
def handleI2CWrite (D : I2CMaster) (E : LinkmErr) (m : Nat → Nat) (num_sent : Nat)
    (s : State) : State :=
  let addr := m 4
  let s := rd 4 s
  let doread := m 5
  let s := rd 5 s
  if addr ≥ 0x80 then setOut 1 E.LINKM_ERR_BADARGS s
  else
    let arg := (addr <<< 1) ||| D.I2C_WRITE
    let r := D.i2c_start s.trace arg
    let s := call (.i2c_start arg) s
    if r = 1 then call .i2c_stop (setOut 1 E.LINKM_ERR_I2C s)
    else
      let s := forU8 ((num_sent : Int) - 1) (sendBody m) 256 0 s
      if doread = 0 then call .i2c_stop s else s

/-- The branch `cmd == LINKM_CMD_I2CREAD` of `handleMessage`. -/
def handleI2CRead (D : I2CMaster) (E : LinkmErr) (m : Nat → Nat) (num_recv : Nat)
    (s : State) : State :=
  let addr := m 4
  let s := rd 4 s
  if num_recv = 0 then setOut 1 E.LINKM_ERR_BADARGS s
  else
    let s := statusLedSet 1 s
    let rarg := (addr <<< 1) ||| D.I2C_READ
    let r := D.i2c_rep_start s.trace rarg
    let s := call (.i2c_rep_start rarg) s
    let s :=
      if r = 1 then setOut 1 E.LINKM_ERR_I2CREAD s
      else forU8 (num_recv : Int) (readBody D num_recv) 256 0 s
    call .i2c_stop (statusLedSet 0 s)

/-- The branch `cmd == LINKM_CMD_I2CSCAN` of `handleMessage`. -/
def handleI2CScan (D : I2CMaster) (E : LinkmErr) (m : Nat → Nat) (s : State) : State :=
  let addr_start := m 4
  let s := rd 4 s
  let addr_end := m 5
  let s := rd 5 s
  if addr_start ≥ 0x80 ∨ addr_end ≥ 0x80 ∨ addr_start > addr_end then
    setOut 1 E.LINKM_ERR_BADARGS s
  else
    let p := forU8 ((addr_end : Int) - (addr_start : Int)) (scanBody D addr_start) 256 0 (0, s)
    setOut 2 p.1 p.2

/-- The function `void handleMessage(void)`.  `m` stands for the pointer of
`uint8_t* mbufp = msgbuf;`. -/
def handleMessage (D : I2CMaster) (E : LinkmErr) (s0 : State) : State :=
  let s := setOut 0 (outbyte s0 0 + 1) s0
  let s := setOut 1 LINKM_ERR_NONE s
  let m : Nat → Nat := mbufp s0
  let s := rd 0 s
  if m 0 ≠ START_BYTE then setOut 1 E.LINKM_ERR_BADSTART s
  else
    let cmd := m 1
    let s := rd 1 s
    let num_sent := m 2
    let s := rd 2 s
    let num_recv := m 3
    let s := rd 3 s
    if cmd = LINKM_CMD_I2CTRANS then handleI2CTrans D E m num_sent num_recv s
    else if cmd = LINKM_CMD_I2CWRITE then handleI2CWrite D E m num_sent s
    else if cmd = LINKM_CMD_I2CREAD then handleI2CRead D E m num_recv s
    else if cmd = LINKM_CMD_I2CSCAN then handleI2CScan D E m s
    else if cmd = LINKM_CMD_I2CCONN then i2cEnable (m 4) (rd 4 s)
    else if cmd = LINKM_CMD_I2CINIT then call .i2c_init (call (.delay_ms 1) (call .i2c_stop s))
    else if cmd = LINKM_CMD_STATLED then statusLedSet (m 4) (rd 4 s)
    else if cmd = LINKM_CMD_STATLEDGET then setOut 2 (statusLedGet s) s
    else s

/-! ## The transfer functions -/

/-- The constants of `usbdrv.h` (not among the sources) that `usbFunctionSetup` uses,
taken as a parameter. -/
structure UsbDrv where
  USBRQ_TYPE_MASK : Nat
  USBRQ_TYPE_CLASS : Nat
  USBRQ_HID_GET_REPORT : Nat
  USBRQ_HID_SET_REPORT : Nat
  USB_NO_MSG : Nat

/-- The two fields of `usbRequest_t` (declared in `usbdrv.h`) that `usbFunctionSetup`
reads from the setup packet. -/
structure UsbRequest where
  bmRequestType : Nat
  bRequest : Nat

/-- The function `usbMsgLen_t usbFunctionSetup(uchar data[8])`, with `rq` the request
that `data` holds; the second component is the value returned. -/
def usbFunctionSetup (U : UsbDrv) (rq : UsbRequest) (s : State) : State × Nat :=
  if rq.bmRequestType &&& U.USBRQ_TYPE_MASK = U.USBRQ_TYPE_CLASS then
    if rq.bRequest = U.USBRQ_HID_GET_REPORT then
      ({ s with bytesRemaining := REPORT_COUNT, currentAddress := 0 }, U.USB_NO_MSG)
    else if rq.bRequest = U.USBRQ_HID_SET_REPORT then
      ({ s with bytesRemaining := REPORT_COUNT, currentAddress := 0 }, U.USB_NO_MSG)
    else (s, 0)
  else (s, 0)

/-- The function `uchar usbFunctionRead(uchar *data, uchar len)`.  The result is the
new state, the value returned, and the bytes that `memcpy` stores at `data`. -/
def usbFunctionRead (len : Nat) (s : State) : State × Nat × List Nat :=
  let len := len % 256
  let len := if len > s.bytesRemaining then s.bytesRemaining else len
  let data := (List.range len).map (fun k => outbyte s (s.currentAddress + k))
  ({ s with
     numWrites := 0
     currentAddress := (s.currentAddress + len) % 256
     bytesRemaining := (s.bytesRemaining - len) % 256 }, len, data)

/-- The function `uchar usbFunctionWrite(uchar *data, uchar len)`, with `data k` the byte
at `data[k]`; the second component is the value returned. -/
def usbFunctionWrite (D : I2CMaster) (E : LinkmErr) (data : Nat → Nat) (len : Nat)
    (s : State) : State × Nat :=
  if s.bytesRemaining = 0 then (s, 1)
  else
    let len := len % 256
    let len := if len > s.bytesRemaining then s.bytesRemaining else len
    let s1 : State :=
      { s with
        msgbuf := fun j =>
          if s.currentAddress ≤ j ∧ j < s.currentAddress + len
          then data (j - s.currentAddress) % 256 else s.msgbuf j
        currentAddress := (s.currentAddress + len) % 256
        bytesRemaining := (s.bytesRemaining - len) % 256 }
    let s2 := if s1.bytesRemaining = 0 then handleMessage D E s1 else s1
    (s2, if s2.bytesRemaining = 0 then 1 else 0)

/-! ## Auxiliary definitions for the statements -/

/-- The first `n` rounds of a loop body, for the counter values 0, 1, .., n-1. -/
def iter {σ : Type} (body : Nat → σ → σ) : Nat → σ → σ
  | 0, x => x
  | n + 1, x => body n (iter body n x)

/-- The state when `main` starts: the static variables are zero. -/
def resetState : State :=
  { currentAddress := 0, bytesRemaining := 0, numWrites := 0
    msgbuf := fun _ => 0, outmsgbuf := fun _ => 0
    PORTB := 0, trace := [], msgReads := [], outWrites := [] }

/-- The state in which `main` enters its event loop: status LED on, bus driver
initialised, bus enabled, and the debug bytes stored in `outmsgbuf[8]` .. `outmsgbuf[15]`
(watchdog, serial port and USB driver set-up are left out). -/
def powerOn : State :=
  let s := statusLedSet 1 resetState
  let s := call .i2c_init s
  let s := i2cEnable 1 s
  let s := setOut 8 0xde s
  let s := setOut 9 0xad s
  let s := setOut 10 0xbe s
  let s := setOut 11 0xef s
  iter (fun i x => setOut (12 + i) (0x60 + i) x) 4 s

/-- The chunks `cs` passed one after the other to `usbFunctionWrite`: the final state and
the values returned. -/
def writeChunks (D : I2CMaster) (E : LinkmErr) : List (List Nat) → State → State × List Nat
  | [], s => (s, [])
  | c :: cs, s =>
    let r := usbFunctionWrite D E (fun k => c.getD k 0) c.length s
    let rs := writeChunks D E cs r.1
    (rs.1, r.2 :: rs.2)

/-- Calls of `usbFunctionRead` with the requested lengths `ls`, one after the other: the
final state and the bytes handed over by each call. -/
def readChunks : List Nat → State → State × List (List Nat)
  | [], s => (s, [])
  | l :: ls, s =>
    let r := usbFunctionRead l s
    let rs := readChunks ls r.1
    (rs.1, r.2.2 :: rs.2)

/-- The buffer `buf` after `bytes` have been copied to it from offset `c` on. -/
def copyIn (buf : Nat → Nat) (c : Nat) (bytes : List Nat) : Nat → Nat :=
  fun j => if c ≤ j ∧ j < c + bytes.length then bytes.getD (j - c) 0 % 256 else buf j

/-- Values of the `usbdrv.h` constants, used for concrete runs. -/
def exampleUsb : UsbDrv :=
  { USBRQ_TYPE_MASK := 0x60, USBRQ_TYPE_CLASS := 0x20
    USBRQ_HID_GET_REPORT := 0x01, USBRQ_HID_SET_REPORT := 0x09, USB_NO_MSG := 0xFF }

/-- A class request GET_REPORT for `exampleUsb`: begins a read session. -/
def getReport : UsbRequest := { bmRequestType := 0xA1, bRequest := 0x01 }

/-- A class request SET_REPORT for `exampleUsb`: begins a write session. -/
def setReport : UsbRequest := { bmRequestType := 0x21, bRequest := 0x09 }

/-- A bus on which every start is acknowledged and every read times out. -/
def readTimeoutBus : I2CMaster :=
  { I2C_READ := 1, I2C_WRITE := 0
    i2c_start := fun _ _ => 0
    i2c_rep_start := fun _ _ => 0
    i2c_read := fun _ _ => -1 }

/-- Is this a byte write on the bus? -/
def Event.isWrite : Event → Bool
  | .i2c_write _ => true
  | _ => false

/-- Is this a start or a repeated start? -/
def Event.isStart : Event → Bool
  | .i2c_start _ => true
  | .i2c_rep_start _ => true
  | _ => false

/-- Every offset logged in `x` beyond those already logged in `s0` lies inside the
16-byte buffers. -/
def InBounds (s0 x : State) : Prop :=
  (∀ k ∈ x.msgReads, k ∈ s0.msgReads ∨ k < REPORT_COUNT) ∧
  (∀ k ∈ x.outWrites, k ∈ s0.outWrites ∨ k < REPORT_COUNT)

/-- An assignment of error codes, used for concrete runs. -/
def exampleErr : LinkmErr :=
  { LINKM_ERR_BADSTART := 101, LINKM_ERR_BADARGS := 102,
    LINKM_ERR_I2C := 103, LINKM_ERR_I2CREAD := 104 }

/-- A bus on which every start is acknowledged and every read returns 0x42. -/
def ackBus : I2CMaster :=
  { I2C_READ := 1, I2C_WRITE := 0
    i2c_start := fun _ _ => 0
    i2c_rep_start := fun _ _ => 0
    i2c_read := fun _ _ => 0x42 }

/-- A bus on which no start is acknowledged and every read times out. -/
def nackBus : I2CMaster :=
  { I2C_READ := 1, I2C_WRITE := 0
    i2c_start := fun _ _ => 1
    i2c_rep_start := fun _ _ => 1
    i2c_read := fun _ _ => -1 }

/-- A state whose command buffer holds the bytes `cmd` (then zeros), whose response
buffer holds `out` (then zeros), with nothing logged yet. -/
def stateOf (cmd out : List Nat) : State :=
  { currentAddress := 0, bytesRemaining := 0, numWrites := 0
    msgbuf := fun k => cmd.getD k 0
    outmsgbuf := fun k => out.getD k 0
    PORTB := 0, trace := [], msgReads := [], outWrites := [] }

/-- The state in which the branch of a command starts: counter incremented, status set
to Ok, bytes 0 to 3 of the command read. -/
def enter (s : State) : State :=
  rd 3 (rd 2 (rd 1 (rd 0 (setOut 1 LINKM_ERR_NONE (setOut 0 (outbyte s 0 + 1) s)))))

/-- The `i`-th of `n` reads: the argument of `i2c_read` is 0 for the last read and 1
for every other. -/
def readCall (n i : Nat) : Event := .i2c_read (if i + 1 = n then 0 else 1)

/-- What the `i`-th of `n` reads returns, when the reads start after the calls `t` and
the reads before it have been made. -/
def readValue (D : I2CMaster) (t : List Event) (n i : Nat) : Int :=
  D.i2c_read (t ++ (List.range i).map (readCall n)) (if i + 1 = n then 0 else 1)

/-- The calls of a bus scan over the `n` addresses from `a0`: for each, in ascending
order, a start in write direction and a stop. -/
def scanTrace (D : I2CMaster) (a0 n : Nat) : List Event :=
  (List.range n).flatMap
    (fun k => [Event.i2c_start (((a0 + k) <<< 1) ||| D.I2C_WRITE), Event.i2c_stop])

/-- The addresses, in ascending order, among the `n` from `a0` whose start is
acknowledged, when the scan begins after the calls `t`. -/
def scanFound (D : I2CMaster) (t : List Event) (a0 n : Nat) : List Nat :=
  ((List.range n).filter
    (fun k => D.i2c_start (t ++ scanTrace D a0 k) (((a0 + k) <<< 1) ||| D.I2C_WRITE) = 0)).map
    (fun k => a0 + k)

/-- State of the Transact branch after its write loop. -/
def transWritten (D : I2CMaster) (m : Nat → Nat) (ns : Nat) (s : State) : State :=
  iter (sendBody m) (ns - 1) (call (.i2c_start ((m 4 <<< 1) ||| D.I2C_WRITE)) (rd 4 s))

/-- State of the Transact branch after its repeated start. -/
def transReading (D : I2CMaster) (m : Nat → Nat) (ns : Nat) (s : State) : State :=
  call (.i2c_rep_start ((m 4 <<< 1) ||| D.I2C_READ)) (statusLedSet 1 (transWritten D m ns s))

/-- The calls made up to the end of the write phase of a Transact command: those made
before it, the start in write direction, and the writes of command bytes 5, 6, ... -/
def transWriteTrace (D : I2CMaster) (s : State) : List Event :=
  s.trace ++ Event.i2c_start ((mbufp s 4 <<< 1) ||| D.I2C_WRITE) ::
    (List.range (mbufp s 2 - 1)).map (fun i => Event.i2c_write (mbufp s (5 + i)))

/-- The calls made up to and including the repeated start of a Transact command. -/
def transReadStart (D : I2CMaster) (s : State) : List Event :=
  transWriteTrace D s ++
    [Event.statusLedSet 1, Event.i2c_rep_start ((mbufp s 4 <<< 1) ||| D.I2C_READ)]

/-- A bus on which only address 0x15 acknowledges a start in write direction. -/
def only15 : I2CMaster :=
  { I2C_READ := 1, I2C_WRITE := 0
    i2c_start := fun _ arg => if arg = (0x15 <<< 1) ||| 0 then 0 else 1
    i2c_rep_start := fun _ _ => 1
    i2c_read := fun _ _ => -1 }

/-- A bus on which every start is acknowledged and a read returns 0x42, except the read
flagged as the last one, which times out. -/
def lastReadTimeoutBus : I2CMaster :=
  { I2C_READ := 1, I2C_WRITE := 0
    i2c_start := fun _ _ => 0
    i2c_rep_start := fun _ _ => 0
    i2c_read := fun _ ack => if ack = 0 then -1 else 0x42 }

/-- The transport events of the spec: begin write session, supplyChunk, begin read
session, drainChunk. -/
inductive Transport where
  | beginWrite
  | supplyChunk (bytes : List Nat)
  | beginRead
  | drainChunk (maxLen : Nat)

/-- The firmware function each transport event calls (with the requests of
`exampleUsb`), applied to the state. -/
def transportStep (D : I2CMaster) (E : LinkmErr) : Transport → State → State
  | .beginWrite, s => (usbFunctionSetup exampleUsb setReport s).1
  | .supplyChunk c, s => (usbFunctionWrite D E (fun k => c.getD k 0) c.length s).1
  | .beginRead, s => (usbFunctionSetup exampleUsb getReport s).1
  | .drainChunk l, s => (usbFunctionRead l s).1

/-- The state after a sequence of transport events. -/
def transportRun (D : I2CMaster) (E : LinkmErr) : List Transport → State → State
  | [], s => s
  | e :: es, s => transportRun D E es (transportStep D E e s)

/-- Number of bytes supplied so far to the most recently begun write session, `none` when
no write session has been begun; `acc` is the value before the events. -/
def suppliedBytes : List Transport → Option Nat → Option Nat
  | [], acc => acc
  | .beginWrite :: es, _ => suppliedBytes es (some 0)
  | .supplyChunk c :: es, acc => suppliedBytes es (acc.map (fun n => n + c.length))
  | _ :: es, acc => suppliedBytes es acc

/-- Following the words of the spec: the most recently begun write session has been
completed, that is, it has been supplied with at least 16 bytes. -/
def writeSessionDone (es : List Transport) : Bool :=
  match suppliedBytes es none with
  | some n => decide (REPORT_COUNT ≤ n)
  | none => false

/-! ## Loops -/

theorem forU8_inv {σ : Type} (P : σ → Prop) (bound : Int) (body : Nat → σ → σ)
    (h : ∀ (i : Nat) (x : σ), (i : Int) < bound → P x → P (body i x)) :
    ∀ fuel i x, P x → P (forU8 bound body fuel i x) := by
  intro fuel
  induction fuel with
  | zero => intro i x hx; exact hx
  | succ f ih =>
    intro i x hx
    unfold forU8
    by_cases hlt : (i : Int) < bound
    · rw [if_pos hlt]; exact ih _ _ (h i x hlt hx)
    · rw [if_neg hlt]; exact hx

theorem forU8_iter_aux {σ : Type} (bound : Int) (body : Nat → σ → σ) (x0 : σ) (n : Nat)
    (hn : bound.toNat = n) (h255 : n ≤ 255) :
    ∀ fuel i, i ≤ n → n - i < fuel →
      forU8 bound body fuel i (iter body i x0) = iter body n x0 := by
  intro fuel
  induction fuel with
  | zero => intro i _ h; omega
  | succ f ih =>
    intro i hi hf
    unfold forU8
    by_cases hlt : (i : Int) < bound
    · have hin : i < n := by omega
      rw [if_pos hlt]
      have hmod : (i + 1) % 256 = i + 1 := Nat.mod_eq_of_lt (by omega)
      rw [hmod]
      exact ih (i + 1) hin (by omega)
    · have hin : i = n := by omega
      rw [if_neg hlt, hin]

/-- With the 256 values of an 8-bit counter as fuel, a loop whose bound is at most 255
runs its body exactly for the counter values below the bound. -/
theorem forU8_eq_iter {σ : Type} (bound : Int) (body : Nat → σ → σ) (x0 : σ)
    (h255 : bound ≤ 255) : forU8 bound body 256 0 x0 = iter body bound.toNat x0 :=
  forU8_iter_aux bound body x0 bound.toNat rfl (by omega) 256 0 (Nat.zero_le _) (by omega)

theorem transRecvLoop_inv (P : State → Prop) (D : I2CMaster) (E : LinkmErr) (n : Nat)
    (hstep : ∀ (i : Nat) (s : State) (c ack : Nat), (i : Int) < (n : Int) → P s →
      P (setOut (2 + i) c (call (.i2c_read ack) s)))
    (hbrk : ∀ (s : State) (ack : Nat), P s →
      P (setOut 1 E.LINKM_ERR_I2CREAD (call (.i2c_read ack) s))) :
    ∀ fuel i s, P s → P (transRecvLoop D E n fuel i s) := by
  intro fuel
  induction fuel with
  | zero => intro i s hs; exact hs
  | succ f ih =>
    intro i s hs
    unfold transRecvLoop
    by_cases hlt : (i : Int) < (n : Int)
    · rw [if_pos hlt]
      dsimp only
      split_ifs
      all_goals first
        | exact hbrk _ _ hs
        | exact ih _ _ (hstep _ _ _ _ hlt hs)
    · rw [if_neg hlt]; exact hs

/-! ## The transaction counter -/

theorem sendLoop_out0 (m : Nat → Nat) (ns : Nat) (s x : State)
    (hx : x.outmsgbuf 0 = s.outmsgbuf 0) :
    (forU8 ((ns : Int) - 1) (sendBody m) 256 0 x).outmsgbuf 0 = s.outmsgbuf 0 :=
  forU8_inv (fun y : State => y.outmsgbuf 0 = s.outmsgbuf 0) _ _
    (by intro i y _ hy; simpa [sendBody, call, rd] using hy) _ _ _ hx

theorem handleI2CTrans_out0 (D : I2CMaster) (E : LinkmErr) (m : Nat → Nat) (ns nr : Nat)
    (s : State) : (handleI2CTrans D E m ns nr s).outmsgbuf 0 = s.outmsgbuf 0 := by
  unfold handleI2CTrans
  dsimp only
  split
  · simp [setOut, rd]
  · split
    · simp [setOut, rd, call]
    · split
      · simp only [call, statusLedSet]
        split
        · simp [setOut]
          exact sendLoop_out0 m ns s _ (by simp [rd, call])
        · apply transRecvLoop_inv (fun y : State => y.outmsgbuf 0 = s.outmsgbuf 0)
          · intro i y c ack _ hy
            have h0 : ¬ (0 = 2 + i) := by omega
            simpa [setOut, call, h0] using hy
          · intro y ack hy; simpa [setOut, call] using hy
          · exact sendLoop_out0 m ns s _ (by simp [rd, call])
      · simp only [call]
        exact sendLoop_out0 m ns s _ (by simp [rd, call])

theorem handleI2CWrite_out0 (D : I2CMaster) (E : LinkmErr) (m : Nat → Nat) (ns : Nat)
    (s : State) : (handleI2CWrite D E m ns s).outmsgbuf 0 = s.outmsgbuf 0 := by
  unfold handleI2CWrite
  dsimp only
  split_ifs
  · simp [setOut, rd]
  · simp [setOut, rd, call]
  · simp only [call]
    exact sendLoop_out0 m ns s _ (by simp [rd, call])
  · exact sendLoop_out0 m ns s _ (by simp [rd, call])

theorem handleI2CRead_out0 (D : I2CMaster) (E : LinkmErr) (m : Nat → Nat) (nr : Nat)
    (s : State) : (handleI2CRead D E m nr s).outmsgbuf 0 = s.outmsgbuf 0 := by
  unfold handleI2CRead
  dsimp only
  split_ifs
  · simp [setOut, rd]
  · simp [setOut, rd, call, statusLedSet]
  · simp only [call, statusLedSet]
    apply forU8_inv (fun y : State => y.outmsgbuf 0 = s.outmsgbuf 0)
    · intro i y _ hy
      have h0 : ¬ (0 = 2 + i) := by omega
      simpa [readBody, setOut, call, h0] using hy
    · simp [rd]

theorem handleI2CScan_out0 (D : I2CMaster) (E : LinkmErr) (m : Nat → Nat) (s : State) :
    (handleI2CScan D E m s).outmsgbuf 0 = s.outmsgbuf 0 := by
  unfold handleI2CScan
  dsimp only
  split_ifs
  · simp [setOut, rd]
  · simp only [setOut]
    simp only [OfNat.zero_ne_ofNat, if_false]
    apply forU8_inv (fun y : Nat × State => y.2.outmsgbuf 0 = s.outmsgbuf 0)
    · intro i y _ hy
      have h0 : ¬ (0 = 3 + y.1) := by omega
      unfold scanBody
      dsimp only
      split_ifs
      · simpa [setOut, call, h0] using hy
      · simpa [call] using hy
    · simp [rd]

theorem handleMessage_out0 (D : I2CMaster) (E : LinkmErr) (s : State) :
    outbyte (handleMessage D E s) 0 = (outbyte s 0 + 1) % 256 := by
  unfold handleMessage outbyte
  dsimp only
  split_ifs
  · simp [setOut, rd]
  · rw [handleI2CTrans_out0]; simp [setOut, rd]
  · rw [handleI2CWrite_out0]; simp [setOut, rd]
  · rw [handleI2CRead_out0]; simp [setOut, rd]
  · rw [handleI2CScan_out0]; simp [setOut, rd]
  · simp [setOut, rd, i2cEnable, call]
  · simp [setOut, rd, call]
  · simp [setOut, rd, statusLedSet, call]
  · simp [setOut, rd]
  · simp [setOut, rd]

/-! ## Offsets touched in the two buffers -/

theorem inBounds_refl (s : State) : InBounds s s :=
  ⟨fun _ hk => Or.inl hk, fun _ hk => Or.inl hk⟩

theorem inBounds_rd {s0 x : State} (k : Nat) (hk : k < 16) (h : InBounds s0 x) :
    InBounds s0 (rd k x) := by
  refine ⟨?_, h.2⟩
  intro j hj
  simp only [rd, List.mem_append, List.mem_singleton] at hj
  rcases hj with hj | hj
  · exact h.1 j hj
  · right; rw [hj]; exact hk

theorem inBounds_setOut {s0 x : State} (k v : Nat) (hk : k < 16) (h : InBounds s0 x) :
    InBounds s0 (setOut k v x) := by
  refine ⟨h.1, ?_⟩
  intro j hj
  simp only [setOut, List.mem_append, List.mem_singleton] at hj
  rcases hj with hj | hj
  · exact h.2 j hj
  · right; rw [hj]; exact hk

theorem inBounds_call {s0 x : State} (e : Event) (h : InBounds s0 x) :
    InBounds s0 (call e x) := h

theorem inBounds_led {s0 x : State} (v : Nat) (h : InBounds s0 x) :
    InBounds s0 (statusLedSet v x) := h

theorem inBounds_enable {s0 x : State} (v : Nat) (h : InBounds s0 x) :
    InBounds s0 (i2cEnable v x) := h

theorem inBounds_sendLoop {s0 x : State} (m : Nat → Nat) (ns : Nat) (hns : ns ≤ 12)
    (h : InBounds s0 x) : InBounds s0 (forU8 ((ns : Int) - 1) (sendBody m) 256 0 x) := by
  apply forU8_inv (fun y : State => InBounds s0 y) _ _ _ _ _ _ h
  intro i y hi hy
  exact inBounds_call _ (inBounds_rd _ (by omega) hy)

theorem inBounds_transRecvLoop {s0 x : State} (D : I2CMaster) (E : LinkmErr) (nr : Nat)
    (hnr : nr ≤ 14) (h : InBounds s0 x) :
    InBounds s0 (transRecvLoop D E nr 256 0 x) := by
  apply transRecvLoop_inv (fun y : State => InBounds s0 y) D E nr _ _ _ _ _ h
  · intro i y c ack hi hy
    exact inBounds_setOut _ _ (by omega) (inBounds_call _ hy)
  · intro y ack hy
    exact inBounds_setOut _ _ (by omega) (inBounds_call _ hy)

theorem inBounds_readLoop {s0 x : State} (D : I2CMaster) (nr : Nat)
    (hnr : nr ≤ 14) (h : InBounds s0 x) :
    InBounds s0 (forU8 (nr : Int) (readBody D nr) 256 0 x) := by
  apply forU8_inv (fun y : State => InBounds s0 y) _ _ _ _ _ _ h
  intro i y hi hy
  exact inBounds_setOut _ _ (by omega) (inBounds_call _ hy)

theorem inBounds_scanIter {s0 x : State} (D : I2CMaster) (a0 nf : Nat) (h : InBounds s0 x) :
    ∀ n, nf + n ≤ 13 →
      (iter (scanBody D a0) n (nf, x)).1 ≤ nf + n ∧
      InBounds s0 (iter (scanBody D a0) n (nf, x)).2 := by
  intro n
  induction n with
  | zero => intro _; exact ⟨Nat.le_refl _, h⟩
  | succ m ih =>
    intro hm
    have ih' := ih (by omega)
    show (scanBody D a0 m (iter (scanBody D a0) m (nf, x))).1 ≤ nf + (m + 1) ∧
      InBounds s0 (scanBody D a0 m (iter (scanBody D a0) m (nf, x))).2
    generalize iter (scanBody D a0) m (nf, x) = p at ih'
    unfold scanBody
    dsimp only
    split_ifs
    · refine ⟨by simp only; omega, ?_⟩
      exact inBounds_call _ (inBounds_setOut _ _ (by omega) (inBounds_call _ ih'.2))
    · refine ⟨by simp only; omega, ?_⟩
      exact inBounds_call _ (inBounds_call _ ih'.2)

theorem handleI2CTrans_inBounds {s0 s : State} (D : I2CMaster) (E : LinkmErr)
    (m : Nat → Nat) (ns nr : Nat) (hns : ns ≤ 12) (hnr : nr ≤ 14) (h : InBounds s0 s) :
    InBounds s0 (handleI2CTrans D E m ns nr s) := by
  have h4 := inBounds_rd 4 (by omega) h
  unfold handleI2CTrans
  dsimp only
  split_ifs
  · exact inBounds_setOut _ _ (by omega) h4
  · exact inBounds_call _ (inBounds_setOut _ _ (by omega) (inBounds_call _ h4))
  · exact inBounds_call _ (inBounds_led _ (inBounds_setOut _ _ (by omega)
      (inBounds_call _ (inBounds_led _ (inBounds_sendLoop m ns hns (inBounds_call _ h4))))))
  · exact inBounds_call _ (inBounds_led _ (inBounds_transRecvLoop D E nr hnr
      (inBounds_call _ (inBounds_led _ (inBounds_sendLoop m ns hns (inBounds_call _ h4))))))
  · exact inBounds_call _ (inBounds_sendLoop m ns hns (inBounds_call _ h4))

theorem handleI2CWrite_inBounds {s0 s : State} (D : I2CMaster) (E : LinkmErr)
    (m : Nat → Nat) (ns : Nat) (hns : ns ≤ 12) (h : InBounds s0 s) :
    InBounds s0 (handleI2CWrite D E m ns s) := by
  have h5 := inBounds_rd 5 (by omega) (inBounds_rd 4 (by omega) h)
  unfold handleI2CWrite
  dsimp only
  split_ifs
  · exact inBounds_setOut _ _ (by omega) h5
  · exact inBounds_call _ (inBounds_setOut _ _ (by omega) (inBounds_call _ h5))
  · exact inBounds_call _ (inBounds_sendLoop m ns hns (inBounds_call _ h5))
  · exact inBounds_sendLoop m ns hns (inBounds_call _ h5)

theorem handleI2CRead_inBounds {s0 s : State} (D : I2CMaster) (E : LinkmErr)
    (m : Nat → Nat) (nr : Nat) (hnr : nr ≤ 14) (h : InBounds s0 s) :
    InBounds s0 (handleI2CRead D E m nr s) := by
  have h4 := inBounds_rd 4 (by omega) h
  unfold handleI2CRead
  dsimp only
  split_ifs
  · exact inBounds_setOut _ _ (by omega) h4
  · exact inBounds_call _ (inBounds_led _ (inBounds_setOut _ _ (by omega)
      (inBounds_call _ (inBounds_led _ h4))))
  · exact inBounds_call _ (inBounds_led _ (inBounds_readLoop D nr hnr
      (inBounds_call _ (inBounds_led _ h4))))

theorem handleI2CScan_inBounds {s0 s : State} (D : I2CMaster) (E : LinkmErr)
    (m : Nat → Nat) (h256 : m 5 < 256) (hrange : m 5 - m 4 ≤ 13) (h : InBounds s0 s) :
    InBounds s0 (handleI2CScan D E m s) := by
  have h5 := inBounds_rd 5 (by omega) (inBounds_rd 4 (by omega) h)
  unfold handleI2CScan
  dsimp only
  split_ifs with hbad
  · exact inBounds_setOut _ _ (by omega) h5
  · have hb : ((m 5 : Int) - (m 4 : Int)) ≤ 255 := by omega
    rw [forU8_eq_iter _ _ _ hb]
    have := inBounds_scanIter D (m 4) 0 h5 ((m 5 : Int) - (m 4 : Int)).toNat (by omega)
    exact inBounds_setOut _ _ (by omega) this.2

theorem handleMessage_inBounds (D : I2CMaster) (E : LinkmErr) (s : State)
    (hs : mbufp s 1 = LINKM_CMD_I2CTRANS ∨ mbufp s 1 = LINKM_CMD_I2CWRITE → mbufp s 2 ≤ 12)
    (hr : mbufp s 1 = LINKM_CMD_I2CTRANS ∨ mbufp s 1 = LINKM_CMD_I2CREAD → mbufp s 3 ≤ 14)
    (hscan : mbufp s 1 = LINKM_CMD_I2CSCAN → mbufp s 5 - mbufp s 4 ≤ 13) :
    InBounds s (handleMessage D E s) := by
  have h1 : InBounds s (setOut 1 LINKM_ERR_NONE (setOut 0 (outbyte s 0 + 1) s)) :=
    inBounds_setOut _ _ (by omega) (inBounds_setOut _ _ (by omega) (inBounds_refl s))
  have h3 := inBounds_rd 3 (by omega) (inBounds_rd 2 (by omega) (inBounds_rd 1 (by omega)
    (inBounds_rd 0 (by omega) h1)))
  unfold handleMessage
  dsimp only
  split_ifs with hstart hT hW hR hS
  · exact inBounds_setOut _ _ (by omega) (inBounds_rd 0 (by omega) h1)
  · exact handleI2CTrans_inBounds D E _ _ _ (hs (Or.inl hT)) (hr (Or.inl hT)) h3
  · exact handleI2CWrite_inBounds D E _ _ (hs (Or.inr hW)) h3
  · exact handleI2CRead_inBounds D E _ _ (hr (Or.inr hR)) h3
  · exact handleI2CScan_inBounds D E _ (Nat.mod_lt _ (by norm_num)) (hscan hS) h3
  · exact inBounds_enable _ (inBounds_rd 4 (by omega) h3)
  · exact h3
  · exact inBounds_led _ (inBounds_rd 4 (by omega) h3)
  · exact inBounds_setOut _ _ (by omega) h3
  · exact h3

/-! ## Closed forms of the loops and of the branches -/

theorem sendIter (m : Nat → Nat) (s : State) (n : Nat) :
    iter (sendBody m) n s =
      { s with
        trace := s.trace ++ (List.range n).map (fun i => Event.i2c_write (m (5 + i)))
        msgReads := s.msgReads ++ (List.range n).map (fun i => 5 + i) } := by
  induction n with
  | zero => simp [iter]
  | succ k ih =>
    simp only [iter, ih, sendBody, call, rd, List.range_succ, List.map_append, List.map_cons,
      List.map_nil, List.append_assoc]

theorem readAck_eq (n i : Nat) :
    (if (i : Int) ≠ (n : Int) - 1 then (1 : Nat) else 0) = (if i + 1 = n then 0 else 1) := by
  by_cases h : i + 1 = n
  · have : (i : Int) = (n : Int) - 1 := by omega
    simp [h, this]
  · have : (i : Int) ≠ (n : Int) - 1 := by omega
    simp [h, this]

theorem readIter (D : I2CMaster) (n : Nat) (s : State) (k : Nat) :
    iter (readBody D n) k s =
      { s with
        trace := s.trace ++ (List.range k).map (readCall n)
        outWrites := s.outWrites ++ (List.range k).map (fun i => 2 + i)
        outmsgbuf := fun j =>
          if 2 ≤ j ∧ j < 2 + k then (readValue D s.trace n (j - 2) % 256).toNat % 256
          else s.outmsgbuf j } := by
  induction k with
  | zero =>
    have : ∀ j : Nat, ¬ (2 ≤ j ∧ j < 2 + 0) := by intro j; omega
    simp [iter, this]
  | succ k ih =>
    simp only [iter, ih, readBody, readAck_eq, setOut, call, List.range_succ, List.map_append,
      List.map_cons, List.map_nil, List.append_assoc]
    simp only [State.mk.injEq, true_and, and_true]
    refine ⟨?_, ?_⟩
    · funext j
      by_cases hj : j = 2 + k
      · subst hj
        have h1 : 2 ≤ 2 + k ∧ 2 + k < 2 + (k + 1) := by omega
        simp [h1, readValue]
      · by_cases hj2 : 2 ≤ j ∧ j < 2 + k
        · have h1 : 2 ≤ j ∧ j < 2 + (k + 1) := by omega
          simp [hj, hj2, h1]
        · have h1 : ¬ (2 ≤ j ∧ j < 2 + (k + 1)) := by omega
          simp [hj, hj2, h1]
    · rfl

theorem readIter_trace (D : I2CMaster) (n : Nat) (s : State) (k : Nat) :
    (iter (readBody D n) k s).trace = s.trace ++ (List.range k).map (readCall n) := by
  rw [readIter]

theorem transRecvLoop_all (D : I2CMaster) (E : LinkmErr) (n : Nat) (s : State)
    (h255 : n ≤ 255) (hok : ∀ i, i < n → readValue D s.trace n i ≠ -1) :
    ∀ fuel j, j ≤ n → n - j < fuel →
      transRecvLoop D E n fuel j (iter (readBody D n) j s) = iter (readBody D n) n s := by
  intro fuel
  induction fuel with
  | zero => intro j _ h; omega
  | succ f ih =>
    intro j hj hf
    unfold transRecvLoop
    by_cases hlt : (j : Int) < (n : Int)
    · have hjn : j < n := by omega
      have hv := hok j hjn
      rw [if_pos hlt]
      simp only [readAck_eq, readIter_trace]
      have hv' : D.i2c_read (s.trace ++ (List.range j).map (readCall n))
          (if j + 1 = n then 0 else 1) ≠ -1 := hv
      rw [if_neg hv']
      have hmod : (j + 1) % 256 = j + 1 := Nat.mod_eq_of_lt (by omega)
      rw [hmod]
      have hstep : setOut (2 + j)
          (D.i2c_read (s.trace ++ (List.range j).map (readCall n))
            (if j + 1 = n then 0 else 1) % 256).toNat
          (call (Event.i2c_read (if j + 1 = n then 0 else 1)) (iter (readBody D n) j s))
          = iter (readBody D n) (j + 1) s := by
        show _ = readBody D n j (iter (readBody D n) j s)
        simp only [readBody, readAck_eq, readIter_trace]
      rw [hstep]
      exact ih (j + 1) hjn (by omega)
    · have hjn : j = n := by omega
      rw [if_neg hlt, hjn]

theorem transRecvLoop_timeout (D : I2CMaster) (E : LinkmErr) (n k : Nat) (s : State)
    (h255 : n ≤ 255) (hk : k < n) (hok : ∀ i, i < k → readValue D s.trace n i ≠ -1)
    (hto : readValue D s.trace n k = -1) :
    ∀ fuel j, j ≤ k → k - j < fuel →
      transRecvLoop D E n fuel j (iter (readBody D n) j s) =
        setOut 1 E.LINKM_ERR_I2CREAD (call (readCall n k) (iter (readBody D n) k s)) := by
  intro fuel
  induction fuel with
  | zero => intro j _ h; omega
  | succ f ih =>
    intro j hj hf
    unfold transRecvLoop
    have hlt : (j : Int) < (n : Int) := by omega
    rw [if_pos hlt]
    simp only [readAck_eq, readIter_trace]
    by_cases hjk : j = k
    · subst hjk
      have hv' : D.i2c_read (s.trace ++ (List.range j).map (readCall n))
          (if j + 1 = n then 0 else 1) = -1 := hto
      rw [if_pos hv']
      rfl
    · have hjk' : j < k := by omega
      have hv' : D.i2c_read (s.trace ++ (List.range j).map (readCall n))
          (if j + 1 = n then 0 else 1) ≠ -1 := hok j hjk'
      rw [if_neg hv']
      have hmod : (j + 1) % 256 = j + 1 := Nat.mod_eq_of_lt (by omega)
      rw [hmod]
      have hstep : setOut (2 + j)
          (D.i2c_read (s.trace ++ (List.range j).map (readCall n))
            (if j + 1 = n then 0 else 1) % 256).toNat
          (call (Event.i2c_read (if j + 1 = n then 0 else 1)) (iter (readBody D n) j s))
          = iter (readBody D n) (j + 1) s := by
        show _ = readBody D n j (iter (readBody D n) j s)
        simp only [readBody, readAck_eq, readIter_trace]
      rw [hstep]
      exact ih (j + 1) hjk' (by omega)

theorem scanTrace_succ (D : I2CMaster) (a0 n : Nat) :
    scanTrace D a0 (n + 1) = scanTrace D a0 n ++
      [Event.i2c_start (((a0 + n) <<< 1) ||| D.I2C_WRITE), Event.i2c_stop] := by
  simp [scanTrace, List.range_succ, List.flatMap_append]

theorem scanFound_succ (D : I2CMaster) (t : List Event) (a0 n : Nat) :
    scanFound D t a0 (n + 1) =
      if D.i2c_start (t ++ scanTrace D a0 n) (((a0 + n) <<< 1) ||| D.I2C_WRITE) = 0
      then scanFound D t a0 n ++ [a0 + n] else scanFound D t a0 n := by
  by_cases h : D.i2c_start (t ++ scanTrace D a0 n) (((a0 + n) <<< 1) ||| D.I2C_WRITE) = 0
  · simp [scanFound, List.range_succ, List.filter_append, h]
  · simp [scanFound, List.range_succ, List.filter_append, h]

theorem scanFound_length_le (D : I2CMaster) (t : List Event) (a0 n : Nat) :
    (scanFound D t a0 n).length ≤ n := by
  unfold scanFound
  rw [List.length_map]
  exact (List.length_filter_le _ _).trans (by simp)

theorem scanIter (D : I2CMaster) (a0 : Nat) (s : State) (n : Nat) :
    iter (scanBody D a0) n (0, s) =
      ((scanFound D s.trace a0 n).length,
       { s with
         trace := s.trace ++ scanTrace D a0 n
         outWrites := s.outWrites ++
           (List.range (scanFound D s.trace a0 n).length).map (fun j => 3 + j)
         outmsgbuf := fun j =>
           if 3 ≤ j ∧ j < 3 + (scanFound D s.trace a0 n).length
           then (scanFound D s.trace a0 n).getD (j - 3) 0 % 256
           else s.outmsgbuf j }) := by
  induction n with
  | zero =>
    have : ∀ j : Nat, ¬ (3 ≤ j ∧ j < 3 + 0) := by intro j; omega
    simp [iter, scanFound, scanTrace, this]
  | succ k ih =>
    simp only [iter, ih, scanBody]
    rw [scanFound_succ, scanTrace_succ]
    by_cases h : D.i2c_start (s.trace ++ scanTrace D a0 k) (((a0 + k) <<< 1) ||| D.I2C_WRITE) = 0
    · simp only [h, if_true, setOut, call, List.length_append, List.length_singleton,
        List.range_succ, List.map_append, List.map_cons, List.map_nil, List.append_assoc,
        List.cons_append, List.nil_append]
      simp only [Prod.mk.injEq, State.mk.injEq, true_and, and_true]
      funext j
      by_cases hj : j = 3 + (scanFound D s.trace a0 k).length
      · subst hj
        simp
      · by_cases hj2 : 3 ≤ j ∧ j < 3 + (scanFound D s.trace a0 k).length
        · have h1 : 3 ≤ j ∧ j < 3 + ((scanFound D s.trace a0 k).length + 1) := by omega
          have h2 : j - 3 < (scanFound D s.trace a0 k).length := by omega
          simp [hj, hj2, h1, List.getElem?_append_left h2]
        · have h1 : ¬ (3 ≤ j ∧ j < 3 + ((scanFound D s.trace a0 k).length + 1)) := by omega
          simp [hj, hj2, h1]
    · simp only [h, if_false, call, List.append_assoc, List.cons_append, List.nil_append]

theorem handleMessage_trans (D : I2CMaster) (E : LinkmErr) (s : State)
    (h0 : mbufp s 0 = START_BYTE) (hc : mbufp s 1 = LINKM_CMD_I2CTRANS) :
    handleMessage D E s = handleI2CTrans D E (mbufp s) (mbufp s 2) (mbufp s 3) (enter s) := by
  unfold handleMessage
  dsimp only
  rw [if_neg (not_not.mpr h0), if_pos hc]
  rfl

theorem handleMessage_write (D : I2CMaster) (E : LinkmErr) (s : State)
    (h0 : mbufp s 0 = START_BYTE) (hc : mbufp s 1 = LINKM_CMD_I2CWRITE) :
    handleMessage D E s = handleI2CWrite D E (mbufp s) (mbufp s 2) (enter s) := by
  unfold handleMessage
  dsimp only
  have h1 : ¬ (mbufp s 1 = LINKM_CMD_I2CTRANS) := by rw [hc]; decide
  rw [if_neg (not_not.mpr h0), if_neg h1, if_pos hc]
  rfl

theorem handleMessage_read (D : I2CMaster) (E : LinkmErr) (s : State)
    (h0 : mbufp s 0 = START_BYTE) (hc : mbufp s 1 = LINKM_CMD_I2CREAD) :
    handleMessage D E s = handleI2CRead D E (mbufp s) (mbufp s 3) (enter s) := by
  unfold handleMessage
  dsimp only
  have h1 : ¬ (mbufp s 1 = LINKM_CMD_I2CTRANS) := by rw [hc]; decide
  have h2 : ¬ (mbufp s 1 = LINKM_CMD_I2CWRITE) := by rw [hc]; decide
  rw [if_neg (not_not.mpr h0), if_neg h1, if_neg h2, if_pos hc]
  rfl

theorem handleMessage_scan (D : I2CMaster) (E : LinkmErr) (s : State)
    (h0 : mbufp s 0 = START_BYTE) (hc : mbufp s 1 = LINKM_CMD_I2CSCAN) :
    handleMessage D E s = handleI2CScan D E (mbufp s) (enter s) := by
  unfold handleMessage
  dsimp only
  have h1 : ¬ (mbufp s 1 = LINKM_CMD_I2CTRANS) := by rw [hc]; decide
  have h2 : ¬ (mbufp s 1 = LINKM_CMD_I2CWRITE) := by rw [hc]; decide
  have h3 : ¬ (mbufp s 1 = LINKM_CMD_I2CREAD) := by rw [hc]; decide
  rw [if_neg (not_not.mpr h0), if_neg h1, if_neg h2, if_neg h3, if_pos hc]
  rfl

theorem mbufp_lt (s : State) (k : Nat) : mbufp s k < 256 := Nat.mod_lt _ (by norm_num)

theorem handleI2CScan_bad (D : I2CMaster) (E : LinkmErr) (m : Nat → Nat) (s : State)
    (hbad : m 4 ≥ 0x80 ∨ m 5 ≥ 0x80 ∨ m 4 > m 5) :
    handleI2CScan D E m s = setOut 1 E.LINKM_ERR_BADARGS (rd 5 (rd 4 s)) := by
  unfold handleI2CScan
  dsimp only
  rw [if_pos hbad]

theorem handleI2CScan_ok (D : I2CMaster) (E : LinkmErr) (m : Nat → Nat) (s : State)
    (h256 : m 5 < 256) (hok : ¬ (m 4 ≥ 0x80 ∨ m 5 ≥ 0x80 ∨ m 4 > m 5)) :
    handleI2CScan D E m s =
      setOut 2 (scanFound D s.trace (m 4) (m 5 - m 4)).length
        { s with
          msgReads := s.msgReads ++ [4, 5]
          trace := s.trace ++ scanTrace D (m 4) (m 5 - m 4)
          outWrites := s.outWrites ++
            (List.range (scanFound D s.trace (m 4) (m 5 - m 4)).length).map (fun j => 3 + j)
          outmsgbuf := fun j =>
            if 3 ≤ j ∧ j < 3 + (scanFound D s.trace (m 4) (m 5 - m 4)).length
            then (scanFound D s.trace (m 4) (m 5 - m 4)).getD (j - 3) 0 % 256
            else s.outmsgbuf j } := by
  unfold handleI2CScan
  dsimp only
  rw [if_neg hok]
  have hb : ((m 5 : Int) - (m 4 : Int)) ≤ 255 := by omega
  have hn : ((m 5 : Int) - (m 4 : Int)).toNat = m 5 - m 4 := by omega
  rw [forU8_eq_iter _ _ _ hb, hn, scanIter]
  simp only [rd, List.append_assoc, List.cons_append, List.nil_append]

theorem enter_trace (s : State) : (enter s).trace = s.trace := rfl

theorem enter_PORTB (s : State) : (enter s).PORTB = s.PORTB := rfl

theorem enter_msgReads (s : State) : (enter s).msgReads = s.msgReads ++ [0, 1, 2, 3] := by
  simp [enter, rd, setOut]

theorem enter_outWrites (s : State) : (enter s).outWrites = s.outWrites ++ [0, 1] := by
  simp [enter, rd, setOut]

theorem enter_outmsgbuf (s : State) (j : Nat) :
    (enter s).outmsgbuf j =
      if j = 1 then LINKM_ERR_NONE % 256
      else if j = 0 then (outbyte s 0 + 1) % 256 else s.outmsgbuf j := rfl

theorem scanFound_mem (D : I2CMaster) (t : List Event) (a0 n x : Nat)
    (hx : x ∈ scanFound D t a0 n) : x < a0 + n := by
  unfold scanFound at hx
  simp only [List.mem_map, List.mem_filter, List.mem_range] at hx
  obtain ⟨k, ⟨hk, _⟩, rfl⟩ := hx
  omega

theorem transWritten_eq (D : I2CMaster) (m : Nat → Nat) (ns : Nat) (s : State) :
    transWritten D m ns s =
      { s with
        trace := s.trace ++ Event.i2c_start ((m 4 <<< 1) ||| D.I2C_WRITE) ::
          (List.range (ns - 1)).map (fun i => Event.i2c_write (m (5 + i)))
        msgReads := s.msgReads ++ 4 :: (List.range (ns - 1)).map (fun i => 5 + i) } := by
  unfold transWritten
  rw [sendIter]
  simp only [call, rd, List.append_assoc, List.cons_append, List.nil_append]

theorem transReading_eq (D : I2CMaster) (m : Nat → Nat) (ns : Nat) (s : State) :
    transReading D m ns s =
      { s with
        PORTB := (s.PORTB ||| (1 <<< PB4)) % 256
        trace := s.trace ++ Event.i2c_start ((m 4 <<< 1) ||| D.I2C_WRITE) ::
          ((List.range (ns - 1)).map (fun i => Event.i2c_write (m (5 + i))) ++
            [Event.statusLedSet 1, Event.i2c_rep_start ((m 4 <<< 1) ||| D.I2C_READ)])
        msgReads := s.msgReads ++ 4 :: (List.range (ns - 1)).map (fun i => 5 + i) } := by
  unfold transReading
  rw [transWritten_eq]
  simp [call, statusLedSet]

theorem handleI2CTrans_nack (D : I2CMaster) (E : LinkmErr) (m : Nat → Nat) (ns nr : Nat)
    (s : State) (ha : m 4 < 0x80)
    (hs : D.i2c_start s.trace ((m 4 <<< 1) ||| D.I2C_WRITE) = 1) :
    handleI2CTrans D E m ns nr s =
      call .i2c_stop (setOut 1 E.LINKM_ERR_I2C
        (call (.i2c_start ((m 4 <<< 1) ||| D.I2C_WRITE)) (rd 4 s))) := by
  unfold handleI2CTrans
  dsimp only
  have ha' : ¬ (m 4 ≥ 0x80) := by omega
  have hs' : D.i2c_start (rd 4 s).trace ((m 4 <<< 1) ||| D.I2C_WRITE) = 1 := hs
  rw [if_neg ha', if_pos hs']

theorem handleI2CWrite_nack (D : I2CMaster) (E : LinkmErr) (m : Nat → Nat) (ns : Nat)
    (s : State) (ha : m 4 < 0x80)
    (hs : D.i2c_start s.trace ((m 4 <<< 1) ||| D.I2C_WRITE) = 1) :
    handleI2CWrite D E m ns s =
      call .i2c_stop (setOut 1 E.LINKM_ERR_I2C
        (call (.i2c_start ((m 4 <<< 1) ||| D.I2C_WRITE)) (rd 5 (rd 4 s)))) := by
  unfold handleI2CWrite
  dsimp only
  have ha' : ¬ (m 4 ≥ 0x80) := by omega
  have hs' : D.i2c_start (rd 5 (rd 4 s)).trace ((m 4 <<< 1) ||| D.I2C_WRITE) = 1 := hs
  rw [if_neg ha', if_pos hs']

theorem handleI2CTrans_go (D : I2CMaster) (E : LinkmErr) (m : Nat → Nat) (ns nr : Nat)
    (s : State) (ha : m 4 < 0x80) (hns : ns < 256)
    (hs : D.i2c_start s.trace ((m 4 <<< 1) ||| D.I2C_WRITE) ≠ 1) :
    handleI2CTrans D E m ns nr s =
      call .i2c_stop
        (if nr ≠ 0 then
          statusLedSet 0
            (if D.i2c_rep_start (statusLedSet 1 (transWritten D m ns s)).trace
                ((m 4 <<< 1) ||| D.I2C_READ) = 1
             then setOut 1 E.LINKM_ERR_I2CREAD (transReading D m ns s)
             else transRecvLoop D E nr 256 0 (transReading D m ns s))
         else transWritten D m ns s) := by
  unfold handleI2CTrans
  dsimp only
  have ha' : ¬ (m 4 ≥ 0x80) := by omega
  have hs' : ¬ (D.i2c_start (rd 4 s).trace ((m 4 <<< 1) ||| D.I2C_WRITE) = 1) := hs
  have hb : ((ns : Int) - 1) ≤ 255 := by omega
  have hn : ((ns : Int) - 1).toNat = ns - 1 := by omega
  rw [if_neg ha', if_neg hs', forU8_eq_iter _ _ _ hb, hn]
  rfl

@[simp] theorem rd_trace (k : Nat) (s : State) : (rd k s).trace = s.trace := rfl

@[simp] theorem rd_outmsgbuf (k : Nat) (s : State) : (rd k s).outmsgbuf = s.outmsgbuf := rfl

@[simp] theorem rd_PORTB (k : Nat) (s : State) : (rd k s).PORTB = s.PORTB := rfl

@[simp] theorem rd_outWrites (k : Nat) (s : State) : (rd k s).outWrites = s.outWrites := rfl

@[simp] theorem call_trace (e : Event) (s : State) : (call e s).trace = s.trace ++ [e] := rfl

@[simp] theorem call_outmsgbuf (e : Event) (s : State) :
    (call e s).outmsgbuf = s.outmsgbuf := rfl

@[simp] theorem call_PORTB (e : Event) (s : State) : (call e s).PORTB = s.PORTB := rfl

@[simp] theorem call_outWrites (e : Event) (s : State) :
    (call e s).outWrites = s.outWrites := rfl

@[simp] theorem setOut_trace (k v : Nat) (s : State) : (setOut k v s).trace = s.trace := rfl

@[simp] theorem setOut_PORTB (k v : Nat) (s : State) : (setOut k v s).PORTB = s.PORTB := rfl

@[simp] theorem setOut_outWrites (k v : Nat) (s : State) :
    (setOut k v s).outWrites = s.outWrites ++ [k] := rfl

@[simp] theorem setOut_outmsgbuf (k v j : Nat) (s : State) :
    (setOut k v s).outmsgbuf j = if j = k then v % 256 else s.outmsgbuf j := rfl

@[simp] theorem statusLedSet_trace (v : Nat) (s : State) :
    (statusLedSet v s).trace = s.trace ++ [Event.statusLedSet v] := rfl

@[simp] theorem statusLedSet_outmsgbuf (v : Nat) (s : State) :
    (statusLedSet v s).outmsgbuf = s.outmsgbuf := rfl

@[simp] theorem statusLedSet_outWrites (v : Nat) (s : State) :
    (statusLedSet v s).outWrites = s.outWrites := rfl

theorem transWritten_led_trace (D : I2CMaster) (s : State) (v : Nat) :
    (statusLedSet v (transWritten D (mbufp s) (mbufp s 2) (enter s))).trace =
      transWriteTrace D s ++ [Event.statusLedSet v] := by
  rw [transWritten_eq]
  simp only [statusLedSet, call, enter_trace, transWriteTrace]

theorem transReading_trace (D : I2CMaster) (s : State) :
    (transReading D (mbufp s) (mbufp s 2) (enter s)).trace = transReadStart D s := by
  rw [transReading_eq]
  simp only [enter_trace, transReadStart, transWriteTrace, List.append_assoc, List.cons_append]

theorem filter_isBus_writes (f : Nat → Nat) (l : List Nat) :
    (l.map (fun i => Event.i2c_write (f i))).filter Event.isBus =
      l.map (fun i => Event.i2c_write (f i)) := by
  apply List.filter_eq_self.mpr
  intro e he
  simp only [List.mem_map] at he
  obtain ⟨i, _, rfl⟩ := he
  rfl

theorem filter_isBus_reads (n : Nat) (l : List Nat) :
    (l.map (readCall n)).filter Event.isBus = l.map (readCall n) := by
  apply List.filter_eq_self.mpr
  intro e he
  simp only [List.mem_map] at he
  obtain ⟨i, _, rfl⟩ := he
  rfl

theorem toNat_emod_256 (c : Int) : (c % 256).toNat % 256 = (c % 256).toNat := by
  omega

theorem led_cleared (p : Nat) : (p &&& (0xFF ^^^ (1 <<< PB4))) &&& (1 <<< PB4) = 0 := by
  rw [Nat.land_assoc]
  have : (0xFF ^^^ (1 <<< PB4)) &&& (1 <<< PB4) = 0 := by decide
  rw [this]
  simp

theorem statusLedGet_lowered (e : Event) (s : State) :
    statusLedGet (call e (statusLedSet 0 s)) = 0 := by
  have h : (call e (statusLedSet 0 s)).PORTB = s.PORTB &&& (0xFF ^^^ (1 <<< PB4)) := by
    simp [call, statusLedSet]
  unfold statusLedGet
  rw [h, led_cleared]
  simp

/-! ## Claims C1 to C5 -/

/-- C1, as stated, fails, on an acknowledging bus, for each of the three counts the
host declares: a Transact command with sendCount = 13 makes the write loop read
`mbufp[5]` .. `mbufp[16]`; a Read command with recvCount = 15 stores at `outmsgbuf[2]` ..
`outmsgbuf[16]`; a BusScan over the 14 addresses 0x10 .. 0x1D stores at `outmsgbuf[3]` ..
`outmsgbuf[16]`. -/
theorem C1_counterexample :
    ¬ ((∀ k ∈ (handleMessage ackBus exampleErr (stateOf [0xDA, 1, 13, 0, 0x50] [])).msgReads,
          k < REPORT_COUNT) ∧
       (∀ k ∈ (handleMessage ackBus exampleErr (stateOf [0xDA, 1, 13, 0, 0x50] [])).outWrites,
          k < REPORT_COUNT)) ∧
    ¬ ((∀ k ∈ (handleMessage ackBus exampleErr (stateOf [0xDA, 3, 0, 15, 0x50] [])).msgReads,
          k < REPORT_COUNT) ∧
       (∀ k ∈ (handleMessage ackBus exampleErr (stateOf [0xDA, 3, 0, 15, 0x50] [])).outWrites,
          k < REPORT_COUNT)) ∧
    ¬ ((∀ k ∈ (handleMessage ackBus exampleErr
            (stateOf [0xDA, 4, 2, 0, 0x10, 0x1E] [])).msgReads,
          k < REPORT_COUNT) ∧
       (∀ k ∈ (handleMessage ackBus exampleErr
            (stateOf [0xDA, 4, 2, 0, 0x10, 0x1E] [])).outWrites,
          k < REPORT_COUNT)) := by
  decide

/-- C1, amended: for every command buffer and every bus, if sendCount is at most 12 when
the command is Transact or Write, recvCount is at most 14 when the command is Transact or
Read, and addrEnd - addrStart is at most 13 when the command is BusScan, then every offset
at which `handleMessage` reads `msgbuf` and every offset at which it writes `outmsgbuf`
is below 16. -/
theorem C1_accesses_in_bounds (D : I2CMaster) (E : LinkmErr) (s : State)
    (hs : mbufp s 1 = LINKM_CMD_I2CTRANS ∨ mbufp s 1 = LINKM_CMD_I2CWRITE → mbufp s 2 ≤ 12)
    (hr : mbufp s 1 = LINKM_CMD_I2CTRANS ∨ mbufp s 1 = LINKM_CMD_I2CREAD → mbufp s 3 ≤ 14)
    (hscan : mbufp s 1 = LINKM_CMD_I2CSCAN → mbufp s 5 - mbufp s 4 ≤ 13) :
    (∀ k ∈ (handleMessage D E s).msgReads, k ∈ s.msgReads ∨ k < REPORT_COUNT) ∧
    (∀ k ∈ (handleMessage D E s).outWrites, k ∈ s.outWrites ∨ k < REPORT_COUNT) :=
  handleMessage_inBounds D E s hs hr hscan

/-- C1, amended, at a Transact command with sendCount = 12 and recvCount = 14. -/
theorem C1_accesses_in_bounds_witness :
    (∀ k ∈ (handleMessage ackBus exampleErr
        (stateOf [0xDA, 1, 12, 14, 0x50] [])).msgReads,
      k ∈ (stateOf [0xDA, 1, 12, 14, 0x50] []).msgReads ∨ k < REPORT_COUNT) ∧
    (∀ k ∈ (handleMessage ackBus exampleErr
        (stateOf [0xDA, 1, 12, 14, 0x50] [])).outWrites,
      k ∈ (stateOf [0xDA, 1, 12, 14, 0x50] []).outWrites ∨ k < REPORT_COUNT) :=
  C1_accesses_in_bounds ackBus exampleErr (stateOf [0xDA, 1, 12, 14, 0x50] [])
    (by decide) (by decide) (by decide)

/-- C2: when byte 0 of the command buffer is not the sentinel, `handleMessage` sets the
status byte to BadStart, increments the transaction counter by 1 modulo 256, and calls
no collaborator at all (neither the bus driver nor the indicator). -/
theorem C2_bad_sentinel (D : I2CMaster) (E : LinkmErr) (s : State)
    (h : mbufp s 0 ≠ START_BYTE) :
    outbyte (handleMessage D E s) 1 = E.LINKM_ERR_BADSTART % 256 ∧
    outbyte (handleMessage D E s) 0 = (outbyte s 0 + 1) % 256 ∧
    (handleMessage D E s).trace = s.trace := by
  simp [handleMessage, outbyte, setOut, rd, h]

/-- C2 at the command `[0xDB, 1, 2, 1, 0x50, 7]` with the counter at 255. -/
theorem C2_bad_sentinel_witness :
    mbufp (stateOf [0xDB, 1, 2, 1, 0x50, 7] [255]) 0 ≠ START_BYTE ∧
    outbyte (handleMessage ackBus exampleErr (stateOf [0xDB, 1, 2, 1, 0x50, 7] [255])) 1
      = exampleErr.LINKM_ERR_BADSTART % 256 ∧
    outbyte (handleMessage ackBus exampleErr (stateOf [0xDB, 1, 2, 1, 0x50, 7] [255])) 0
      = (outbyte (stateOf [0xDB, 1, 2, 1, 0x50, 7] [255]) 0 + 1) % 256 ∧
    (handleMessage ackBus exampleErr (stateOf [0xDB, 1, 2, 1, 0x50, 7] [255])).trace
      = (stateOf [0xDB, 1, 2, 1, 0x50, 7] [255]).trace :=
  ⟨by decide, C2_bad_sentinel ackBus exampleErr (stateOf [0xDB, 1, 2, 1, 0x50, 7] [255])
    (by decide)⟩

/-- C3: for every command buffer and every bus, one run of `handleMessage` leaves response
byte 0 equal to its previous value plus 1, modulo 256. -/
theorem C3_counter_increments (D : I2CMaster) (E : LinkmErr) (s : State) :
    outbyte (handleMessage D E s) 0 = (outbyte s 0 + 1) % 256 :=
  handleMessage_out0 D E s

/-- C4: a valid-sentinel Transact or Write command whose address byte is 0x80 or more
gets status BadArgs, and no collaborator is called (in particular no bus start). -/
theorem C4_trans_write_bad_address (D : I2CMaster) (E : LinkmErr) (s : State)
    (h0 : mbufp s 0 = START_BYTE)
    (hc : mbufp s 1 = LINKM_CMD_I2CTRANS ∨ mbufp s 1 = LINKM_CMD_I2CWRITE)
    (ha : mbufp s 4 ≥ 0x80) :
    outbyte (handleMessage D E s) 1 = E.LINKM_ERR_BADARGS % 256 ∧
    (handleMessage D E s).trace = s.trace := by
  rcases hc with hc | hc
  · simp [handleMessage, handleI2CTrans, outbyte, setOut, rd, h0, hc, ha]
  · have hne : ¬ (LINKM_CMD_I2CWRITE = LINKM_CMD_I2CTRANS) := by decide
    simp [handleMessage, handleI2CWrite, outbyte, setOut, rd, h0, hc, ha, hne]

/-- C4 at the Write command `[0xDA, 2, 2, 0, 0x80, 0]`. -/
theorem C4_trans_write_bad_address_witness :
    mbufp (stateOf [0xDA, 2, 2, 0, 0x80, 0] []) 0 = START_BYTE ∧
    (mbufp (stateOf [0xDA, 2, 2, 0, 0x80, 0] []) 1 = LINKM_CMD_I2CTRANS ∨
      mbufp (stateOf [0xDA, 2, 2, 0, 0x80, 0] []) 1 = LINKM_CMD_I2CWRITE) ∧
    mbufp (stateOf [0xDA, 2, 2, 0, 0x80, 0] []) 4 ≥ 0x80 ∧
    outbyte (handleMessage ackBus exampleErr (stateOf [0xDA, 2, 2, 0, 0x80, 0] [])) 1
      = exampleErr.LINKM_ERR_BADARGS % 256 ∧
    (handleMessage ackBus exampleErr (stateOf [0xDA, 2, 2, 0, 0x80, 0] [])).trace
      = (stateOf [0xDA, 2, 2, 0, 0x80, 0] []).trace :=
  ⟨by decide, by decide, by decide,
    C4_trans_write_bad_address ackBus exampleErr (stateOf [0xDA, 2, 2, 0, 0x80, 0] [])
      (by decide) (by decide) (by decide)⟩

/-- C5 fails on the code: the Read branch never compares the address with 0x80.  For the
command `[0xDA, 3, 0, 1, 0x80]` on an acknowledging bus the indicator is raised, a
repeated start, a read and a stop are issued, and the status stays Ok. -/
theorem C5_read_bad_address_reaches_bus :
    mbufp (stateOf [0xDA, 3, 0, 1, 0x80] []) 4 ≥ 0x80 ∧
    (handleMessage ackBus exampleErr (stateOf [0xDA, 3, 0, 1, 0x80] [])).trace =
      [.statusLedSet 1, .i2c_rep_start 0x101, .i2c_read 0, .statusLedSet 0, .i2c_stop] ∧
    outbyte (handleMessage ackBus exampleErr (stateOf [0xDA, 3, 0, 1, 0x80] [])) 1
      = LINKM_ERR_NONE := by
  decide

/-! ## Claims C6 to C10 -/

/-- C6: for a valid-sentinel BusScan command, if addrStart > addrEnd or one of them is
0x80 or more, the status is BadArgs and no call is made; otherwise the calls made are
exactly, for each address from addrStart up to addrEnd - 1 in ascending order, a start in
write direction followed by a stop, whatever the bus answers. -/
theorem C6_scan_trace (D : I2CMaster) (E : LinkmErr) (s : State)
    (h0 : mbufp s 0 = START_BYTE) (hc : mbufp s 1 = LINKM_CMD_I2CSCAN) :
    ((mbufp s 4 > mbufp s 5 ∨ mbufp s 4 ≥ 0x80 ∨ mbufp s 5 ≥ 0x80) →
      outbyte (handleMessage D E s) 1 = E.LINKM_ERR_BADARGS % 256 ∧
      (handleMessage D E s).trace = s.trace) ∧
    (¬ (mbufp s 4 > mbufp s 5 ∨ mbufp s 4 ≥ 0x80 ∨ mbufp s 5 ≥ 0x80) →
      (handleMessage D E s).trace = s.trace ++
        (List.range (mbufp s 5 - mbufp s 4)).flatMap
          (fun k => [Event.i2c_start (((mbufp s 4 + k) <<< 1) ||| D.I2C_WRITE),
                     Event.i2c_stop])) := by
  rw [handleMessage_scan D E s h0 hc]
  constructor
  · intro hbad
    have hbad' : mbufp s 4 ≥ 0x80 ∨ mbufp s 5 ≥ 0x80 ∨ mbufp s 4 > mbufp s 5 := by tauto
    rw [handleI2CScan_bad D E _ _ hbad']
    simp [outbyte, setOut, rd, enter]
  · intro hok
    have hok' : ¬ (mbufp s 4 ≥ 0x80 ∨ mbufp s 5 ≥ 0x80 ∨ mbufp s 4 > mbufp s 5) := by tauto
    rw [handleI2CScan_ok D E _ _ (mbufp_lt s 5) hok']
    simp only [setOut, enter_trace, scanTrace]

/-- C6 at the scan of 0x10 .. 0x13 on an acknowledging bus: three start and stop pairs. -/
theorem C6_scan_trace_witness :
    (mbufp (stateOf [0xDA, 4, 2, 0, 0x10, 0x13] []) 0 = START_BYTE ∧
     mbufp (stateOf [0xDA, 4, 2, 0, 0x10, 0x13] []) 1 = LINKM_CMD_I2CSCAN) ∧
    (handleMessage ackBus exampleErr (stateOf [0xDA, 4, 2, 0, 0x10, 0x13] [])).trace =
      [Event.i2c_start 0x20, Event.i2c_stop, Event.i2c_start 0x22, Event.i2c_stop,
       Event.i2c_start 0x24, Event.i2c_stop] :=
  ⟨by decide,
    (C6_scan_trace ackBus exampleErr (stateOf [0xDA, 4, 2, 0, 0x10, 0x13] [])
      (by decide) (by decide)).2 (by decide)⟩

/-- C7: for a valid BusScan command (addrStart ≤ addrEnd < 0x80) in which at most 13
addresses acknowledge, the status is Ok, response byte 2 is the number of addresses of
the range whose start was acknowledged, and response bytes 3, 4, ... hold those addresses
in ascending order. -/
theorem C7_scan_result (D : I2CMaster) (E : LinkmErr) (s : State)
    (h0 : mbufp s 0 = START_BYTE) (hc : mbufp s 1 = LINKM_CMD_I2CSCAN)
    (hle : mbufp s 4 ≤ mbufp s 5) (hend : mbufp s 5 < 0x80)
    (_hcap : (scanFound D s.trace (mbufp s 4) (mbufp s 5 - mbufp s 4)).length ≤ 13) :
    outbyte (handleMessage D E s) 1 = LINKM_ERR_NONE ∧
    outbyte (handleMessage D E s) 2 =
      (scanFound D s.trace (mbufp s 4) (mbufp s 5 - mbufp s 4)).length ∧
    (List.range (scanFound D s.trace (mbufp s 4) (mbufp s 5 - mbufp s 4)).length).map
      (fun j => outbyte (handleMessage D E s) (3 + j)) =
      scanFound D s.trace (mbufp s 4) (mbufp s 5 - mbufp s 4) := by
  have hok : ¬ (mbufp s 4 ≥ 0x80 ∨ mbufp s 5 ≥ 0x80 ∨ mbufp s 4 > mbufp s 5) := by omega
  have hlen := scanFound_length_le D s.trace (mbufp s 4) (mbufp s 5 - mbufp s 4)
  rw [handleMessage_scan D E s h0 hc, handleI2CScan_ok D E _ _ (mbufp_lt s 5) hok]
  simp only [enter_trace]
  generalize hF : scanFound D s.trace (mbufp s 4) (mbufp s 5 - mbufp s 4) = F at hlen
  have hmem : ∀ x ∈ F, x < 256 := by
    intro x hx
    rw [← hF] at hx
    have := scanFound_mem D s.trace _ _ x hx
    omega
  refine ⟨?_, ?_, ?_⟩
  · have hc2 : ¬ (3 ≤ 1 ∧ 1 < 3 + F.length) := by omega
    simp [outbyte, setOut, enter_outmsgbuf, LINKM_ERR_NONE, hc2]
  · simp only [outbyte, setOut, if_true]
    omega
  · apply List.ext_getElem
    · simp
    · intro j h1 h2
      have hj : j < F.length := h2
      have hx : F[j] < 256 := hmem _ (List.getElem_mem _)
      have hc1 : ¬ (3 + j = 2) := by omega
      have hc2 : 3 ≤ 3 + j ∧ 3 + j < 3 + F.length := by omega
      simp only [List.getElem_map, List.getElem_range, outbyte, setOut, hc1, if_false]
      rw [if_pos hc2, Nat.add_sub_cancel_left, List.getD_eq_getElem _ _ hj]
      omega

/-- C7 at the scan of 0x10 .. 0x20 where only 0x15 acknowledges, with the counter at 7:
the response starts `[8, 0x00, 0x01, 0x15]`. -/
theorem C7_scan_result_witness :
    (mbufp (stateOf [0xDA, 4, 2, 0, 0x10, 0x20] [7]) 0 = START_BYTE ∧
     mbufp (stateOf [0xDA, 4, 2, 0, 0x10, 0x20] [7]) 1 = LINKM_CMD_I2CSCAN) ∧
    scanFound only15 (stateOf [0xDA, 4, 2, 0, 0x10, 0x20] [7]).trace 0x10 (0x20 - 0x10)
      = [0x15] ∧
    outbyte (handleMessage only15 exampleErr (stateOf [0xDA, 4, 2, 0, 0x10, 0x20] [7])) 1
      = 0 ∧
    outbyte (handleMessage only15 exampleErr (stateOf [0xDA, 4, 2, 0, 0x10, 0x20] [7])) 2
      = 1 ∧
    [outbyte (handleMessage only15 exampleErr (stateOf [0xDA, 4, 2, 0, 0x10, 0x20] [7])) 3]
      = [0x15] :=
  ⟨by decide, by decide,
    C7_scan_result only15 exampleErr (stateOf [0xDA, 4, 2, 0, 0x10, 0x20] [7])
      (by decide) (by decide) (by decide) (by decide) (by decide)⟩

/-- C8: for a valid-sentinel Transact command with address < 0x80, 1 ≤ sendCount ≤ 12
and recvCount ≤ 14, when the start and the repeated start are acknowledged and no read
times out, the calls to the bus driver are exactly: start in write direction; writes of
command bytes 5 .. 5+sendCount-2; then, if recvCount > 0, a repeated start in read
direction and recvCount reads, the last one flagged 0 and the others 1; then stop.  The
status is Ok and response byte 2+i holds the i-th byte read. -/
theorem C8_transact_ok (D : I2CMaster) (E : LinkmErr) (s : State)
    (h0 : mbufp s 0 = START_BYTE) (hc : mbufp s 1 = LINKM_CMD_I2CTRANS)
    (ha : mbufp s 4 < 0x80)
    (_hns1 : 1 ≤ mbufp s 2) (_hns : mbufp s 2 ≤ 12) (_hnr : mbufp s 3 ≤ 14)
    (hstart : D.i2c_start s.trace ((mbufp s 4 <<< 1) ||| D.I2C_WRITE) = 0)
    (hrep : mbufp s 3 ≠ 0 →
      D.i2c_rep_start (transWriteTrace D s ++ [Event.statusLedSet 1])
        ((mbufp s 4 <<< 1) ||| D.I2C_READ) = 0)
    (hread : ∀ i, i < mbufp s 3 → readValue D (transReadStart D s) (mbufp s 3) i ≠ -1) :
    ((handleMessage D E s).trace.drop s.trace.length).filter Event.isBus =
      Event.i2c_start ((mbufp s 4 <<< 1) ||| D.I2C_WRITE) ::
        (List.range (mbufp s 2 - 1)).map (fun i => Event.i2c_write (mbufp s (5 + i))) ++
      (if mbufp s 3 = 0 then []
       else Event.i2c_rep_start ((mbufp s 4 <<< 1) ||| D.I2C_READ) ::
         (List.range (mbufp s 3)).map
           (fun i => Event.i2c_read (if i + 1 = mbufp s 3 then 0 else 1))) ++
      [Event.i2c_stop] ∧
    outbyte (handleMessage D E s) 1 = LINKM_ERR_NONE ∧
    ∀ i, i < mbufp s 3 →
      outbyte (handleMessage D E s) (2 + i) =
        (readValue D (transReadStart D s) (mbufp s 3) i % 256).toNat := by
  have hs1 : D.i2c_start (enter s).trace ((mbufp s 4 <<< 1) ||| D.I2C_WRITE) ≠ 1 := by
    rw [enter_trace, hstart]; decide
  rw [handleMessage_trans D E s h0 hc,
    handleI2CTrans_go D E _ _ _ _ ha (mbufp_lt s 2) hs1]
  by_cases hnr0 : mbufp s 3 = 0
  · have hnn : ¬ (mbufp s 3 ≠ 0) := not_not.mpr hnr0
    rw [if_neg hnn, if_pos hnr0, transWritten_eq]
    refine ⟨?_, ?_, ?_⟩
    · simp only [call, enter_trace, List.append_assoc, List.drop_left, List.filter_append,
        List.filter_cons, Event.isBus, if_true, List.filter_nil, filter_isBus_writes,
        List.cons_append, List.nil_append, List.append_nil]
    · simp [outbyte, call, enter_outmsgbuf, LINKM_ERR_NONE]
    · intro i hi; omega
  · have hrep' : ¬ (D.i2c_rep_start
        (statusLedSet 1 (transWritten D (mbufp s) (mbufp s 2) (enter s))).trace
        ((mbufp s 4 <<< 1) ||| D.I2C_READ) = 1) := by
      rw [transWritten_led_trace, hrep hnr0]; decide
    have hok : ∀ i, i < mbufp s 3 →
        readValue D (transReading D (mbufp s) (mbufp s 2) (enter s)).trace (mbufp s 3) i ≠ -1 := by
      rw [transReading_trace]; exact hread
    have hloop := transRecvLoop_all D E (mbufp s 3) _ (by have := mbufp_lt s 3; omega) hok
      256 0 (Nat.zero_le _) (by have := mbufp_lt s 3; omega)
    simp only [iter] at hloop
    have hrc : readCall (mbufp s 3) =
        fun i => Event.i2c_read (if i + 1 = mbufp s 3 then 0 else 1) := rfl
    rw [if_pos hnr0, if_neg hrep', if_neg hnr0, hloop, readIter, transReading_trace]
    refine ⟨?_, ?_, ?_⟩
    · simp only [call, statusLedSet, transReadStart, transWriteTrace, List.append_assoc,
        List.drop_left, List.filter_append,
        List.filter_cons, Event.isBus, if_true, List.filter_nil, filter_isBus_writes,
        filter_isBus_reads, List.cons_append, List.nil_append, List.append_nil]
      simp [hrc]
    · have h1 : ¬ (2 ≤ 1 ∧ 1 < 2 + mbufp s 3) := by omega
      simp only [outbyte, call_outmsgbuf, statusLedSet_outmsgbuf, h1, if_false]
      rw [transReading_eq]
      simp [enter_outmsgbuf, LINKM_ERR_NONE]
    · intro i hi
      have h1 : 2 ≤ 2 + i ∧ 2 + i < 2 + mbufp s 3 := by omega
      simp only [outbyte, call_outmsgbuf, statusLedSet_outmsgbuf]
      rw [if_pos h1, Nat.add_sub_cancel_left, toNat_emod_256, toNat_emod_256]

/-- C8 at the command `[0xDA, 1, 3, 2, 0x50, 7, 8]` on an acknowledging bus. -/
theorem C8_transact_ok_witness :
    (mbufp (stateOf [0xDA, 1, 3, 2, 0x50, 7, 8] []) 0 = START_BYTE ∧
     mbufp (stateOf [0xDA, 1, 3, 2, 0x50, 7, 8] []) 1 = LINKM_CMD_I2CTRANS) ∧
    ((handleMessage ackBus exampleErr (stateOf [0xDA, 1, 3, 2, 0x50, 7, 8] [])).trace.drop
        (stateOf [0xDA, 1, 3, 2, 0x50, 7, 8] []).trace.length).filter Event.isBus =
      [Event.i2c_start 0xA0, Event.i2c_write 7, Event.i2c_write 8, Event.i2c_rep_start 0xA1,
       Event.i2c_read 1, Event.i2c_read 0, Event.i2c_stop] ∧
    outbyte (handleMessage ackBus exampleErr (stateOf [0xDA, 1, 3, 2, 0x50, 7, 8] [])) 1
      = LINKM_ERR_NONE ∧
    ∀ i, i < mbufp (stateOf [0xDA, 1, 3, 2, 0x50, 7, 8] []) 3 →
      outbyte (handleMessage ackBus exampleErr (stateOf [0xDA, 1, 3, 2, 0x50, 7, 8] []))
          (2 + i) =
        (readValue ackBus (transReadStart ackBus (stateOf [0xDA, 1, 3, 2, 0x50, 7, 8] []))
          (mbufp (stateOf [0xDA, 1, 3, 2, 0x50, 7, 8] []) 3) i % 256).toNat :=
  ⟨by decide,
    C8_transact_ok ackBus exampleErr (stateOf [0xDA, 1, 3, 2, 0x50, 7, 8] [])
      (by decide) (by decide) (by decide) (by decide) (by decide) (by decide) (by decide)
      (by decide) (by decide)⟩

/-- C9: for a valid-sentinel Transact or Write command with address < 0x80, if the start
in write direction is not acknowledged then the status is BusError, the calls made are
exactly that start and a stop (so the indicator is never raised and port B is
unchanged), and the response bytes from offset 2 on are unchanged. -/
theorem C9_start_not_acknowledged (D : I2CMaster) (E : LinkmErr) (s : State)
    (h0 : mbufp s 0 = START_BYTE)
    (hc : mbufp s 1 = LINKM_CMD_I2CTRANS ∨ mbufp s 1 = LINKM_CMD_I2CWRITE)
    (ha : mbufp s 4 < 0x80)
    (hstart : D.i2c_start s.trace ((mbufp s 4 <<< 1) ||| D.I2C_WRITE) = 1) :
    outbyte (handleMessage D E s) 1 = E.LINKM_ERR_I2C % 256 ∧
    (handleMessage D E s).trace =
      s.trace ++ [Event.i2c_start ((mbufp s 4 <<< 1) ||| D.I2C_WRITE), Event.i2c_stop] ∧
    (handleMessage D E s).PORTB = s.PORTB ∧
    ∀ j, 2 ≤ j → (handleMessage D E s).outmsgbuf j = s.outmsgbuf j := by
  have hs1 : D.i2c_start (enter s).trace ((mbufp s 4 <<< 1) ||| D.I2C_WRITE) = 1 := by
    rw [enter_trace, hstart]
  rcases hc with hc | hc
  · rw [handleMessage_trans D E s h0 hc, handleI2CTrans_nack D E _ _ _ _ ha hs1]
    refine ⟨?_, ?_, ?_, ?_⟩
    · simp [outbyte]
    · simp [enter_trace]
    · simp [enter_PORTB]
    · intro j hj
      have h1 : ¬ (j = 1) := by omega
      have h2 : ¬ (j = 0) := by omega
      simp [enter_outmsgbuf, h1, h2]
  · rw [handleMessage_write D E s h0 hc, handleI2CWrite_nack D E _ _ _ ha hs1]
    refine ⟨?_, ?_, ?_, ?_⟩
    · simp [outbyte]
    · simp [enter_trace]
    · simp [enter_PORTB]
    · intro j hj
      have h1 : ¬ (j = 1) := by omega
      have h2 : ¬ (j = 0) := by omega
      simp [enter_outmsgbuf, h1, h2]

/-- C9 at the command `[0xDA, 1, 2, 1, 0x50, 7]` on a bus that never acknowledges. -/
theorem C9_start_not_acknowledged_witness :
    (mbufp (stateOf [0xDA, 1, 2, 1, 0x50, 7] []) 0 = START_BYTE ∧
     mbufp (stateOf [0xDA, 1, 2, 1, 0x50, 7] []) 4 < 0x80) ∧
    outbyte (handleMessage nackBus exampleErr (stateOf [0xDA, 1, 2, 1, 0x50, 7] [])) 1
      = exampleErr.LINKM_ERR_I2C % 256 ∧
    (handleMessage nackBus exampleErr (stateOf [0xDA, 1, 2, 1, 0x50, 7] [])).trace =
      (stateOf [0xDA, 1, 2, 1, 0x50, 7] []).trace ++ [Event.i2c_start 0xA0, Event.i2c_stop] ∧
    (handleMessage nackBus exampleErr (stateOf [0xDA, 1, 2, 1, 0x50, 7] [])).PORTB
      = (stateOf [0xDA, 1, 2, 1, 0x50, 7] []).PORTB ∧
    ∀ j, 2 ≤ j →
      (handleMessage nackBus exampleErr (stateOf [0xDA, 1, 2, 1, 0x50, 7] [])).outmsgbuf j
        = (stateOf [0xDA, 1, 2, 1, 0x50, 7] []).outmsgbuf j :=
  ⟨by decide,
    C9_start_not_acknowledged nackBus exampleErr (stateOf [0xDA, 1, 2, 1, 0x50, 7] [])
      (by decide) (by decide) (by decide) (by decide)⟩

/-- C10: for a valid-sentinel Transact command with address < 0x80 and recvCount > 0
whose start in write direction is acknowledged.  If the repeated start is acknowledged
and read number k (counted from 0) is the first to time out, then exactly k+1 reads are
issued, followed by the lowering of the indicator and the stop; the status is
BusReadError; response bytes 2 .. 2+k-1 hold the k bytes read; the stores of the run go
to offsets 0, 1, 2 .. 2+k-1 and 1, so byte 2+k keeps its value; the indicator ends
lowered.  If the repeated start is not acknowledged, no read is issued, the indicator is
raised and lowered, the stop is issued and the status is BusReadError. -/
theorem C10_transact_read_errors (D : I2CMaster) (E : LinkmErr) (s : State)
    (h0 : mbufp s 0 = START_BYTE) (hc : mbufp s 1 = LINKM_CMD_I2CTRANS)
    (ha : mbufp s 4 < 0x80) (hnr : mbufp s 3 ≠ 0)
    (hstart : D.i2c_start s.trace ((mbufp s 4 <<< 1) ||| D.I2C_WRITE) = 0) :
    (D.i2c_rep_start (transWriteTrace D s ++ [Event.statusLedSet 1])
        ((mbufp s 4 <<< 1) ||| D.I2C_READ) = 0 →
      ∀ k, k < mbufp s 3 →
        (∀ i, i < k → readValue D (transReadStart D s) (mbufp s 3) i ≠ -1) →
        readValue D (transReadStart D s) (mbufp s 3) k = -1 →
        (handleMessage D E s).trace =
          transReadStart D s ++
            (List.range (k + 1)).map
              (fun i => Event.i2c_read (if i + 1 = mbufp s 3 then 0 else 1)) ++
            [Event.statusLedSet 0, Event.i2c_stop] ∧
        outbyte (handleMessage D E s) 1 = E.LINKM_ERR_I2CREAD % 256 ∧
        (∀ i, i < k → outbyte (handleMessage D E s) (2 + i) =
          (readValue D (transReadStart D s) (mbufp s 3) i % 256).toNat) ∧
        (handleMessage D E s).outWrites =
          s.outWrites ++ [0, 1] ++ (List.range k).map (fun i => 2 + i) ++ [1] ∧
        (handleMessage D E s).outmsgbuf (2 + k) = s.outmsgbuf (2 + k) ∧
        statusLedGet (handleMessage D E s) = 0) ∧
    (D.i2c_rep_start (transWriteTrace D s ++ [Event.statusLedSet 1])
        ((mbufp s 4 <<< 1) ||| D.I2C_READ) = 1 →
      (handleMessage D E s).trace =
        transReadStart D s ++ [Event.statusLedSet 0, Event.i2c_stop] ∧
      outbyte (handleMessage D E s) 1 = E.LINKM_ERR_I2CREAD % 256 ∧
      statusLedGet (handleMessage D E s) = 0) := by
  have hs1 : D.i2c_start (enter s).trace ((mbufp s 4 <<< 1) ||| D.I2C_WRITE) ≠ 1 := by
    rw [enter_trace, hstart]; decide
  rw [handleMessage_trans D E s h0 hc,
    handleI2CTrans_go D E _ _ _ _ ha (mbufp_lt s 2) hs1, if_pos hnr, transWritten_led_trace]
  constructor
  · intro hrep k hk hok hto
    have hrep' : ¬ (D.i2c_rep_start (transWriteTrace D s ++ [Event.statusLedSet 1])
        ((mbufp s 4 <<< 1) ||| D.I2C_READ) = 1) := by
      rw [hrep]; decide
    have hok' : ∀ i, i < k →
        readValue D (transReading D (mbufp s) (mbufp s 2) (enter s)).trace (mbufp s 3) i ≠ -1 := by
      rw [transReading_trace]; exact hok
    have hto' :
        readValue D (transReading D (mbufp s) (mbufp s 2) (enter s)).trace (mbufp s 3) k = -1 := by
      rw [transReading_trace]; exact hto
    have hloop := transRecvLoop_timeout D E (mbufp s 3) k _
      (by have := mbufp_lt s 3; omega) hk hok' hto' 256 0 (Nat.zero_le _) (by
        have := mbufp_lt s 3; omega)
    simp only [iter] at hloop
    have hrc : readCall (mbufp s 3) =
        fun i => Event.i2c_read (if i + 1 = mbufp s 3 then 0 else 1) := rfl
    rw [if_neg hrep', hloop, readIter, transReading_trace]
    refine ⟨?_, ?_, ?_, ?_, ?_, ?_⟩
    · simp [List.range_succ, hrc, readCall]
    · simp [outbyte]
    · intro i hi
      have h1 : ¬ (2 + i = 1) := by omega
      have h2 : 2 ≤ 2 + i ∧ 2 + i < 2 + k := by omega
      simp only [outbyte, call_outmsgbuf, statusLedSet_outmsgbuf, setOut_outmsgbuf, h1,
        if_false]
      rw [if_pos h2, Nat.add_sub_cancel_left, toNat_emod_256, toNat_emod_256]
    · rw [transReading_eq]
      simp [enter_outWrites]
    · have h1 : ¬ (2 + k = 1) := by omega
      have h2 : ¬ (2 ≤ 2 + k ∧ 2 + k < 2 + k) := by omega
      have h3 : ¬ (2 + k = 0) := by omega
      simp only [call_outmsgbuf, statusLedSet_outmsgbuf, setOut_outmsgbuf, h1, if_false, h2]
      rw [transReading_eq]
      simp only [enter_outmsgbuf, h1, h3, if_false]
    · exact statusLedGet_lowered _ _
  · intro hrep
    rw [if_pos hrep]
    refine ⟨?_, ?_, ?_⟩
    · simp [transReading_trace]
    · simp [outbyte]
    · exact statusLedGet_lowered _ _

/-- C10 at the command `[0xDA, 1, 1, 3, 0x50]` on a bus whose third read times out. -/
theorem C10_transact_read_errors_witness :
    (handleMessage lastReadTimeoutBus exampleErr (stateOf [0xDA, 1, 1, 3, 0x50] [])).trace =
      [Event.i2c_start 0xA0, Event.statusLedSet 1, Event.i2c_rep_start 0xA1,
       Event.i2c_read 1, Event.i2c_read 1, Event.i2c_read 0,
       Event.statusLedSet 0, Event.i2c_stop] ∧
    outbyte (handleMessage lastReadTimeoutBus exampleErr (stateOf [0xDA, 1, 1, 3, 0x50] [])) 1
      = exampleErr.LINKM_ERR_I2CREAD % 256 ∧
    (∀ i, i < 2 →
      outbyte (handleMessage lastReadTimeoutBus exampleErr
          (stateOf [0xDA, 1, 1, 3, 0x50] [])) (2 + i) =
        (readValue lastReadTimeoutBus
          (transReadStart lastReadTimeoutBus (stateOf [0xDA, 1, 1, 3, 0x50] []))
          (mbufp (stateOf [0xDA, 1, 1, 3, 0x50] []) 3) i % 256).toNat) ∧
    (handleMessage lastReadTimeoutBus exampleErr
        (stateOf [0xDA, 1, 1, 3, 0x50] [])).outWrites = [0, 1, 2, 3, 1] ∧
    (handleMessage lastReadTimeoutBus exampleErr
        (stateOf [0xDA, 1, 1, 3, 0x50] [])).outmsgbuf (2 + 2)
      = (stateOf [0xDA, 1, 1, 3, 0x50] []).outmsgbuf (2 + 2) ∧
    statusLedGet (handleMessage lastReadTimeoutBus exampleErr
        (stateOf [0xDA, 1, 1, 3, 0x50] [])) = 0 :=
  (C10_transact_read_errors lastReadTimeoutBus exampleErr (stateOf [0xDA, 1, 1, 3, 0x50] [])
    (by decide) (by decide) (by decide) (by decide) (by decide)).1
    (by decide) 2 (by decide) (by decide) (by decide)

/-! ## Shape of the trace of a run -/

/-- The trace of `x` continues the trace `t`. -/
theorem ext_refl (t : List Event) : ∃ y, t = t ++ y := ⟨[], by simp⟩

theorem sendLoop_ext (m : Nat → Nat) (ns : Nat) (x : State) :
    ∃ y, (forU8 ((ns : Int) - 1) (sendBody m) 256 0 x).trace = x.trace ++ y ∧
      ∀ e ∈ y, e.isBus = true ∧ e.isStart = false := by
  apply forU8_inv (fun z : State => ∃ y, z.trace = x.trace ++ y ∧
    ∀ e ∈ y, e.isBus = true ∧ e.isStart = false)
  · intro i z _ hz
    obtain ⟨y, hy, hb⟩ := hz
    refine ⟨y ++ [Event.i2c_write (m (5 + i))], ?_, ?_⟩
    · simp [sendBody, hy]
    · intro e he
      simp only [List.mem_append, List.mem_singleton] at he
      rcases he with he | he
      · exact hb e he
      · subst he; exact ⟨rfl, rfl⟩
  · exact ⟨[], by simp, by simp⟩

theorem transRecvLoop_ext (D : I2CMaster) (E : LinkmErr) (n : Nat) (x : State) :
    ∃ y, (transRecvLoop D E n 256 0 x).trace = x.trace ++ y ∧
      ∀ e ∈ y, e.isWrite = false ∧ e.isStart = false := by
  apply transRecvLoop_inv (fun z : State => ∃ y, z.trace = x.trace ++ y ∧
    ∀ e ∈ y, e.isWrite = false ∧ e.isStart = false) D E n
  · intro i z c ack _ hz
    obtain ⟨y, hy, hb⟩ := hz
    refine ⟨y ++ [Event.i2c_read ack], ?_, ?_⟩
    · simp [hy]
    · intro e he
      simp only [List.mem_append, List.mem_singleton] at he
      rcases he with he | he
      · exact hb e he
      · subst he; exact ⟨rfl, rfl⟩
  · intro z ack hz
    obtain ⟨y, hy, hb⟩ := hz
    refine ⟨y ++ [Event.i2c_read ack], ?_, ?_⟩
    · simp [hy]
    · intro e he
      simp only [List.mem_append, List.mem_singleton] at he
      rcases he with he | he
      · exact hb e he
      · subst he; exact ⟨rfl, rfl⟩
  · exact ⟨[], by simp, by simp⟩

theorem readLoop_ext (D : I2CMaster) (n : Nat) (x : State) :
    ∃ y, (forU8 (n : Int) (readBody D n) 256 0 x).trace = x.trace ++ y := by
  apply forU8_inv (fun z : State => ∃ y, z.trace = x.trace ++ y)
  · intro i z _ hz
    obtain ⟨y, hy⟩ := hz
    exact ⟨y ++ [Event.i2c_read (if (i : Int) ≠ (n : Int) - 1 then 1 else 0)], by
      simp [readBody, hy]⟩
  · exact ⟨[], by simp⟩


theorem handleI2CTrans_shape (D : I2CMaster) (E : LinkmErr) (m : Nat → Nat) (ns nr : Nat)
    (s : State) :
    (handleI2CTrans D E m ns nr s).trace = s.trace ∨
    ∃ y, (handleI2CTrans D E m ns nr s).trace = s.trace ++ y ++ [Event.i2c_stop] := by
  obtain ⟨y, hy, -⟩ := sendLoop_ext m ns
    (call (Event.i2c_start ((m 4 <<< 1) ||| D.I2C_WRITE)) (rd 4 s))
  unfold handleI2CTrans
  dsimp only
  split_ifs
  · left; simp
  · right; exact ⟨[Event.i2c_start ((m 4 <<< 1) ||| D.I2C_WRITE)], by simp⟩
  · right
    refine ⟨Event.i2c_start ((m 4 <<< 1) ||| D.I2C_WRITE) :: y ++
      [Event.statusLedSet 1, Event.i2c_rep_start ((m 4 <<< 1) ||| D.I2C_READ),
       Event.statusLedSet 0], ?_⟩
    simp [hy]
  · right
    obtain ⟨z, hz, -⟩ := transRecvLoop_ext D E nr
      (call (Event.i2c_rep_start ((m 4 <<< 1) ||| D.I2C_READ))
        (statusLedSet 1 (forU8 ((ns : Int) - 1) (sendBody m) 256 0
          (call (Event.i2c_start ((m 4 <<< 1) ||| D.I2C_WRITE)) (rd 4 s)))))
    refine ⟨Event.i2c_start ((m 4 <<< 1) ||| D.I2C_WRITE) :: y ++
      [Event.statusLedSet 1, Event.i2c_rep_start ((m 4 <<< 1) ||| D.I2C_READ)] ++ z ++
      [Event.statusLedSet 0], ?_⟩
    simp [hz, hy]
  · right
    exact ⟨Event.i2c_start ((m 4 <<< 1) ||| D.I2C_WRITE) :: y, by simp [hy]⟩

theorem handleI2CWrite_shape (D : I2CMaster) (E : LinkmErr) (m : Nat → Nat) (ns : Nat)
    (s : State) (hhold : m 5 = 0) :
    (handleI2CWrite D E m ns s).trace = s.trace ∨
    ∃ y, (handleI2CWrite D E m ns s).trace = s.trace ++ y ++ [Event.i2c_stop] := by
  obtain ⟨y, hy, -⟩ := sendLoop_ext m ns
    (call (Event.i2c_start ((m 4 <<< 1) ||| D.I2C_WRITE)) (rd 5 (rd 4 s)))
  unfold handleI2CWrite
  dsimp only
  rw [if_pos hhold]
  split_ifs
  · left; simp
  · right; exact ⟨[Event.i2c_start ((m 4 <<< 1) ||| D.I2C_WRITE)], by simp⟩
  · right
    exact ⟨Event.i2c_start ((m 4 <<< 1) ||| D.I2C_WRITE) :: y, by simp [hy]⟩

theorem handleI2CRead_shape (D : I2CMaster) (E : LinkmErr) (m : Nat → Nat) (nr : Nat)
    (s : State) :
    (handleI2CRead D E m nr s).trace = s.trace ∨
    ∃ y, (handleI2CRead D E m nr s).trace = s.trace ++ y ++ [Event.i2c_stop] := by
  unfold handleI2CRead
  dsimp only
  split_ifs
  · left; simp
  · right
    exact ⟨[Event.statusLedSet 1, Event.i2c_rep_start ((m 4 <<< 1) ||| D.I2C_READ),
      Event.statusLedSet 0], by simp⟩
  · right
    obtain ⟨z, hz⟩ := readLoop_ext D nr
      (call (Event.i2c_rep_start ((m 4 <<< 1) ||| D.I2C_READ)) (statusLedSet 1 (rd 4 s)))
    refine ⟨[Event.statusLedSet 1, Event.i2c_rep_start ((m 4 <<< 1) ||| D.I2C_READ)] ++ z ++
      [Event.statusLedSet 0], ?_⟩
    simp [hz]

theorem handleI2CScan_shape (D : I2CMaster) (E : LinkmErr) (m : Nat → Nat) (s : State)
    (h256 : m 5 < 256) :
    (handleI2CScan D E m s).trace = s.trace ∨
    ∃ y, (handleI2CScan D E m s).trace = s.trace ++ y ++ [Event.i2c_stop] := by
  by_cases hbad : m 4 ≥ 0x80 ∨ m 5 ≥ 0x80 ∨ m 4 > m 5
  · left
    rw [handleI2CScan_bad D E m s hbad]
    simp
  · rw [handleI2CScan_ok D E m s h256 hbad]
    cases hn : m 5 - m 4 with
    | zero => left; simp [scanTrace]
    | succ n =>
      right
      refine ⟨scanTrace D (m 4) n ++ [Event.i2c_start (((m 4 + n) <<< 1) ||| D.I2C_WRITE)], ?_⟩
      simp [scanTrace_succ]

theorem last_bus_call_stop (t0 t : List Event)
    (hshape : t = t0 ∨ ∃ y, t = t0 ++ y ++ [Event.i2c_stop])
    (hst : ∃ e ∈ t.drop t0.length, e.isStart = true) :
    ((t.drop t0.length).filter Event.isBus).getLast? = some Event.i2c_stop := by
  rcases hshape with h | ⟨y, h⟩
  · subst h
    obtain ⟨e, he, _⟩ := hst
    simp at he
  · subst h
    rw [List.append_assoc, List.drop_left, List.filter_append]
    simp [Event.isBus]


theorem handleI2CWrite_go (D : I2CMaster) (E : LinkmErr) (m : Nat → Nat) (ns : Nat)
    (s : State) (ha : m 4 < 0x80) (hns : ns < 256)
    (hs : D.i2c_start s.trace ((m 4 <<< 1) ||| D.I2C_WRITE) ≠ 1) :
    handleI2CWrite D E m ns s =
      if m 5 = 0 then
        call .i2c_stop (iter (sendBody m) (ns - 1)
          (call (.i2c_start ((m 4 <<< 1) ||| D.I2C_WRITE)) (rd 5 (rd 4 s))))
      else
        iter (sendBody m) (ns - 1)
          (call (.i2c_start ((m 4 <<< 1) ||| D.I2C_WRITE)) (rd 5 (rd 4 s))) := by
  unfold handleI2CWrite
  dsimp only
  have ha' : ¬ (m 4 ≥ 0x80) := by omega
  have hs' : ¬ (D.i2c_start (rd 5 (rd 4 s)).trace ((m 4 <<< 1) ||| D.I2C_WRITE) = 1) := hs
  have hb : ((ns : Int) - 1) ≤ 255 := by omega
  have hn : ((ns : Int) - 1).toNat = ns - 1 := by omega
  rw [if_neg ha', if_neg hs', forU8_eq_iter _ _ _ hb, hn]

theorem handleMessage_unknown (D : I2CMaster) (E : LinkmErr) (s : State)
    (h0 : mbufp s 0 = START_BYTE)
    (h1 : mbufp s 1 ≠ LINKM_CMD_I2CTRANS) (h2 : mbufp s 1 ≠ LINKM_CMD_I2CWRITE)
    (h3 : mbufp s 1 ≠ LINKM_CMD_I2CREAD) (h4 : mbufp s 1 ≠ LINKM_CMD_I2CSCAN)
    (h5 : mbufp s 1 ≠ LINKM_CMD_I2CCONN) (h6 : mbufp s 1 ≠ LINKM_CMD_I2CINIT) :
    handleMessage D E s = enter s := by
  have h7 : ¬ (mbufp s 1 = LINKM_CMD_STATLED) := by
    have := mbufp_lt s 1
    unfold LINKM_CMD_STATLED
    omega
  have h8 : ¬ (mbufp s 1 = LINKM_CMD_STATLEDGET) := by
    have := mbufp_lt s 1
    unfold LINKM_CMD_STATLEDGET
    omega
  unfold handleMessage
  dsimp only
  rw [if_neg (not_not.mpr h0), if_neg h1, if_neg h2, if_neg h3, if_neg h4, if_neg h5,
    if_neg h6, if_neg h7, if_neg h8]
  rfl

theorem filter_isWrite_writes (f : Nat → Nat) (l : List Nat) :
    (l.map (fun i => Event.i2c_write (f i))).filter Event.isWrite =
      l.map (fun i => Event.i2c_write (f i)) := by
  apply List.filter_eq_self.mpr
  intro e he
  simp only [List.mem_map] at he
  obtain ⟨i, _, rfl⟩ := he
  rfl

theorem handleI2CTrans_writes (D : I2CMaster) (E : LinkmErr) (m : Nat → Nat) (ns nr : Nat)
    (s : State) (ha : m 4 < 0x80) (hns : ns < 256)
    (hs : D.i2c_start s.trace ((m 4 <<< 1) ||| D.I2C_WRITE) ≠ 1) :
    ∃ z, (handleI2CTrans D E m ns nr s).trace =
        s.trace ++ (Event.i2c_start ((m 4 <<< 1) ||| D.I2C_WRITE) ::
          (List.range (ns - 1)).map (fun i => Event.i2c_write (m (5 + i)))) ++ z ∧
      ∀ e ∈ z, e.isWrite = false := by
  rw [handleI2CTrans_go D E m ns nr s ha hns hs]
  split_ifs with h1 h2
  · refine ⟨[Event.statusLedSet 1, Event.i2c_rep_start ((m 4 <<< 1) ||| D.I2C_READ),
      Event.statusLedSet 0, Event.i2c_stop], ?_, ?_⟩
    · rw [transReading_eq]; simp
    · intro e he
      simp only [List.mem_cons, List.mem_singleton, List.not_mem_nil, or_false] at he
      rcases he with he | he | he | he <;> subst he <;> rfl
  · obtain ⟨y, hy, hw⟩ := transRecvLoop_ext D E nr (transReading D m ns s)
    refine ⟨[Event.statusLedSet 1, Event.i2c_rep_start ((m 4 <<< 1) ||| D.I2C_READ)] ++ y ++
      [Event.statusLedSet 0, Event.i2c_stop], ?_, ?_⟩
    · simp only [call_trace, statusLedSet_trace, hy]
      rw [transReading_eq]; simp
    · intro e he
      simp only [List.mem_append, List.mem_cons, List.mem_singleton, List.not_mem_nil,
        or_false] at he
      rcases he with ((he | he) | he) | he | he
      · subst he; rfl
      · subst he; rfl
      · exact (hw e he).1
      · subst he; rfl
      · subst he; rfl
  · refine ⟨[Event.i2c_stop], ?_, ?_⟩
    · rw [transWritten_eq]; simp
    · intro e he
      simp only [List.mem_singleton] at he
      subst he; rfl

/-! ## What `handleMessage` leaves alone -/

theorem handleMessage_frame {α : Type} (f : State → α) (D : I2CMaster) (E : LinkmErr)
    (hrd : ∀ k x, f (rd k x) = f x)
    (hset : ∀ k v x, f (setOut k v x) = f x)
    (hcall : ∀ e x, f (call e x) = f x)
    (hled : ∀ v x, f (statusLedSet v x) = f x)
    (hen : ∀ v x, f (i2cEnable v x) = f x) (s : State) :
    f (handleMessage D E s) = f s := by
  have hsend : ∀ (m : Nat → Nat) (ns : Nat) (x : State),
      f (forU8 ((ns : Int) - 1) (sendBody m) 256 0 x) = f x := by
    intro m ns x
    apply forU8_inv (fun y : State => f y = f x)
    · intro i y _ hy
      show f (call _ (rd _ y)) = f x
      rw [hcall, hrd, hy]
    · rfl
  have hrecv : ∀ (n : Nat) (x : State), f (transRecvLoop D E n 256 0 x) = f x := by
    intro n x
    apply transRecvLoop_inv (fun y : State => f y = f x) D E n
    · intro i y c ack _ hy
      show f (setOut _ _ (call _ y)) = f x
      rw [hset, hcall, hy]
    · intro y ack hy
      show f (setOut _ _ (call _ y)) = f x
      rw [hset, hcall, hy]
    · rfl
  have hread : ∀ (n : Nat) (x : State),
      f (forU8 (n : Int) (readBody D n) 256 0 x) = f x := by
    intro n x
    apply forU8_inv (fun y : State => f y = f x)
    · intro i y _ hy
      show f (setOut _ _ (call _ y)) = f x
      rw [hset, hcall, hy]
    · rfl
  have hscan : ∀ (b : Int) (a0 : Nat) (x : State),
      f (forU8 b (scanBody D a0) 256 0 (0, x)).2 = f x := by
    intro b a0 x
    apply forU8_inv (fun y : Nat × State => f y.2 = f x)
    · intro i y _ hy
      unfold scanBody
      dsimp only
      split_ifs
      · show f (call _ (setOut _ _ (call _ y.2))) = f x
        rw [hcall, hset, hcall, hy]
      · show f (call _ (call _ y.2)) = f x
        rw [hcall, hcall, hy]
    · rfl
  have hent : f (enter s) = f s := by
    unfold enter
    rw [hrd, hrd, hrd, hrd, hset, hset]
  have h0 : f (rd 0 (setOut 1 LINKM_ERR_NONE (setOut 0 (outbyte s 0 + 1) s))) = f s := by
    rw [hrd, hset, hset]
  unfold handleMessage
  dsimp only
  split_ifs
  · rw [hset, h0]
  · show f (handleI2CTrans D E (mbufp s) (mbufp s 2) (mbufp s 3) (enter s)) = f s
    unfold handleI2CTrans
    dsimp only
    split_ifs
    · rw [hset, hrd, hent]
    · rw [hcall, hset, hcall, hrd, hent]
    · rw [hcall, hled, hset, hcall, hled, hsend, hcall, hrd, hent]
    · rw [hcall, hled, hrecv, hcall, hled, hsend, hcall, hrd, hent]
    · rw [hcall, hsend, hcall, hrd, hent]
  · show f (handleI2CWrite D E (mbufp s) (mbufp s 2) (enter s)) = f s
    unfold handleI2CWrite
    dsimp only
    split_ifs
    · rw [hset, hrd, hrd, hent]
    · rw [hcall, hset, hcall, hrd, hrd, hent]
    · rw [hcall, hsend, hcall, hrd, hrd, hent]
    · rw [hsend, hcall, hrd, hrd, hent]
  · show f (handleI2CRead D E (mbufp s) (mbufp s 3) (enter s)) = f s
    unfold handleI2CRead
    dsimp only
    split_ifs
    · rw [hset, hrd, hent]
    · rw [hcall, hled, hset, hcall, hled, hrd, hent]
    · rw [hcall, hled, hread, hcall, hled, hrd, hent]
  · show f (handleI2CScan D E (mbufp s) (enter s)) = f s
    unfold handleI2CScan
    dsimp only
    split_ifs
    · rw [hset, hrd, hrd, hent]
    · rw [hset, hscan, hrd, hrd, hent]
  · show f (i2cEnable _ (rd 4 (enter s))) = f s
    rw [hen, hrd, hent]
  · show f (call _ (call _ (call _ (enter s)))) = f s
    rw [hcall, hcall, hcall, hent]
  · show f (statusLedSet _ (rd 4 (enter s))) = f s
    rw [hled, hrd, hent]
  · show f (setOut 2 _ (enter s)) = f s
    rw [hset, hent]
  · exact hent

theorem handleMessage_bytesRemaining (D : I2CMaster) (E : LinkmErr) (s : State) :
    (handleMessage D E s).bytesRemaining = s.bytesRemaining :=
  handleMessage_frame State.bytesRemaining D E (fun _ _ => rfl) (fun _ _ _ => rfl)
    (fun _ _ => rfl) (fun _ _ => rfl) (fun _ _ => rfl) s

theorem handleMessage_currentAddress (D : I2CMaster) (E : LinkmErr) (s : State) :
    (handleMessage D E s).currentAddress = s.currentAddress :=
  handleMessage_frame State.currentAddress D E (fun _ _ => rfl) (fun _ _ _ => rfl)
    (fun _ _ => rfl) (fun _ _ => rfl) (fun _ _ => rfl) s

theorem handleMessage_msgbuf (D : I2CMaster) (E : LinkmErr) (s : State) :
    (handleMessage D E s).msgbuf = s.msgbuf :=
  handleMessage_frame State.msgbuf D E (fun _ _ => rfl) (fun _ _ _ => rfl)
    (fun _ _ => rfl) (fun _ _ => rfl) (fun _ _ => rfl) s


/-! ## The write session -/

theorem copyIn_nil (buf : Nat → Nat) (c : Nat) : copyIn buf c [] = buf := by
  funext j
  have : ¬ (c ≤ j ∧ j < c + 0) := by omega
  simp [copyIn, this]

theorem copyIn_append (buf : Nat → Nat) (c : Nat) (xs ys : List Nat) :
    copyIn (copyIn buf c xs) (c + xs.length) ys = copyIn buf c (xs ++ ys) := by
  funext j
  unfold copyIn
  by_cases h1 : c + xs.length ≤ j ∧ j < c + xs.length + ys.length
  · have h2 : c ≤ j ∧ j < c + (xs ++ ys).length := by
      rw [List.length_append]; omega
    have h3 : xs.length ≤ j - c := by omega
    have h4 : j - c - xs.length = j - (c + xs.length) := by omega
    rw [if_pos h1, if_pos h2, List.getD_append_right _ _ _ _ h3, h4]
  · rw [if_neg h1]
    by_cases h2 : c ≤ j ∧ j < c + xs.length
    · have h3 : c ≤ j ∧ j < c + (xs ++ ys).length := by
        rw [List.length_append]; omega
      have h4 : j - c < xs.length := by omega
      rw [if_pos h2, if_pos h3, List.getD_append _ _ _ _ h4]
    · have h3 : ¬ (c ≤ j ∧ j < c + (xs ++ ys).length) := by
        rw [List.length_append]; omega
      rw [if_neg h2, if_neg h3]

theorem usbFunctionWrite_done (D : I2CMaster) (E : LinkmErr) (data : Nat → Nat) (len : Nat)
    (s : State) (h : s.bytesRemaining = 0) : usbFunctionWrite D E data len s = (s, 1) := by
  unfold usbFunctionWrite
  rw [if_pos h]

theorem usbFunctionWrite_short (D : I2CMaster) (E : LinkmErr) (c : List Nat) (s : State)
    (hinv : s.currentAddress + s.bytesRemaining = 16) (hl : c.length < s.bytesRemaining) :
    usbFunctionWrite D E (fun k => c.getD k 0) c.length s =
      ({ s with
         msgbuf := copyIn s.msgbuf s.currentAddress c
         currentAddress := s.currentAddress + c.length
         bytesRemaining := s.bytesRemaining - c.length }, 0) := by
  have hb : ¬ (s.bytesRemaining = 0) := by omega
  have hm : c.length % 256 = c.length := Nat.mod_eq_of_lt (by omega)
  have hgt : ¬ (c.length > s.bytesRemaining) := by omega
  have h1 : (s.currentAddress + c.length) % 256 = s.currentAddress + c.length :=
    Nat.mod_eq_of_lt (by omega)
  have h2 : (s.bytesRemaining - c.length) % 256 = s.bytesRemaining - c.length :=
    Nat.mod_eq_of_lt (by omega)
  have h3 : ¬ (s.bytesRemaining - c.length = 0) := by omega
  unfold usbFunctionWrite
  rw [if_neg hb]
  simp only [hm, if_neg hgt, h1, h2, if_neg h3]
  rfl

theorem usbFunctionWrite_complete (D : I2CMaster) (E : LinkmErr) (c : List Nat) (s : State)
    (hinv : s.currentAddress + s.bytesRemaining = 16) (hb : s.bytesRemaining ≠ 0)
    (hl : s.bytesRemaining ≤ c.length) (h256 : c.length < 256) :
    usbFunctionWrite D E (fun k => c.getD k 0) c.length s =
      (handleMessage D E { s with
         msgbuf := copyIn s.msgbuf s.currentAddress (c.take s.bytesRemaining)
         currentAddress := 16
         bytesRemaining := 0 }, 1) := by
  have hm : c.length % 256 = c.length := Nat.mod_eq_of_lt h256
  have hlen : (if c.length > s.bytesRemaining then s.bytesRemaining else c.length)
      = s.bytesRemaining := by
    split_ifs <;> omega
  have h1 : (s.currentAddress + s.bytesRemaining) % 256 = 16 := by rw [hinv]
  have h2 : (s.bytesRemaining - s.bytesRemaining) % 256 = 0 := by simp
  have hbuf : (fun j => if s.currentAddress ≤ j ∧ j < s.currentAddress + s.bytesRemaining
      then c.getD (j - s.currentAddress) 0 % 256 else s.msgbuf j) =
      copyIn s.msgbuf s.currentAddress (c.take s.bytesRemaining) := by
    funext j
    unfold copyIn
    have hlt : (c.take s.bytesRemaining).length = s.bytesRemaining := by
      rw [List.length_take]; omega
    rw [hlt]
    by_cases hj : s.currentAddress ≤ j ∧ j < s.currentAddress + s.bytesRemaining
    · have hjj : j - s.currentAddress < s.bytesRemaining := by omega
      rw [if_pos hj, if_pos hj, List.getD_eq_getElem?_getD, List.getD_eq_getElem?_getD,
        List.getElem?_take_of_lt hjj]
    · rw [if_neg hj, if_neg hj]
  unfold usbFunctionWrite
  rw [if_neg hb]
  simp only [hm, hlen, h1, h2, if_true, hbuf, handleMessage_bytesRemaining]


theorem writeChunks_done (D : I2CMaster) (E : LinkmErr) (cs : List (List Nat)) :
    ∀ s : State, s.bytesRemaining = 0 →
      writeChunks D E cs s = (s, cs.map (fun _ => 1)) := by
  induction cs with
  | nil => intro s _; rfl
  | cons c cs ih =>
    intro s h
    simp only [writeChunks, usbFunctionWrite_done D E _ _ s h, ih s h, List.map_cons]

theorem writeChunks_short (D : I2CMaster) (E : LinkmErr) (cs : List (List Nat)) :
    ∀ s : State, s.currentAddress + s.bytesRemaining = 16 →
      (cs.map List.length).sum < s.bytesRemaining →
      (writeChunks D E cs s).1 =
        { s with
          msgbuf := copyIn s.msgbuf s.currentAddress cs.flatten
          currentAddress := s.currentAddress + (cs.map List.length).sum
          bytesRemaining := s.bytesRemaining - (cs.map List.length).sum } := by
  induction cs with
  | nil =>
    intro s _ _
    simp [writeChunks, copyIn_nil]
  | cons c cs ih =>
    intro s hinv hlt
    simp only [List.map_cons, List.sum_cons] at hlt
    have hc : c.length < s.bytesRemaining := by omega
    simp only [writeChunks, usbFunctionWrite_short D E c s hinv hc]
    rw [ih _ (by simp only; omega) (by simp only; omega)]
    simp only [List.map_cons, List.sum_cons, List.flatten_cons, copyIn_append,
      State.mk.injEq, true_and, and_true]
    omega

theorem writeChunks_complete (D : I2CMaster) (E : LinkmErr) (cs : List (List Nat)) :
    ∀ s : State, s.currentAddress + s.bytesRemaining = 16 → s.bytesRemaining ≠ 0 →
      (∀ c ∈ cs, c.length < 256) →
      s.bytesRemaining ≤ (cs.map List.length).sum →
      (writeChunks D E cs s).1 =
        handleMessage D E { s with
          msgbuf := copyIn s.msgbuf s.currentAddress (cs.flatten.take s.bytesRemaining)
          currentAddress := 16
          bytesRemaining := 0 } := by
  induction cs with
  | nil =>
    intro s _ hb _ hle
    simp at hle
    exact absurd hle hb
  | cons c cs ih =>
    intro s hinv hb h256 hle
    simp only [List.map_cons, List.sum_cons] at hle
    have hc256 : c.length < 256 := h256 c (List.mem_cons_self _ _)
    have hcs256 : ∀ c' ∈ cs, c'.length < 256 :=
      fun c' hc' => h256 c' (List.mem_cons_of_mem _ hc')
    by_cases hc : c.length < s.bytesRemaining
    · simp only [writeChunks, usbFunctionWrite_short D E c s hinv hc]
      rw [ih _ (by simp only; omega) (by simp only; omega) hcs256 (by simp only; omega)]
      have htake : (c ++ cs.flatten).take s.bytesRemaining =
          c ++ cs.flatten.take (s.bytesRemaining - c.length) := by
        rw [List.take_append_eq_append_take, List.take_of_length_le (by omega)]
      simp only [List.flatten_cons, htake, copyIn_append]
    · have hc' : s.bytesRemaining ≤ c.length := by omega
      have htake : (c ++ cs.flatten).take s.bytesRemaining = c.take s.bytesRemaining :=
        List.take_append_of_le_length hc'
      simp only [writeChunks, usbFunctionWrite_complete D E c s hinv hb hc' hc256]
      rw [writeChunks_done D E cs _ (by rw [handleMessage_bytesRemaining])]
      simp only [List.flatten_cons, htake]

theorem usbFunctionWrite_step (D : I2CMaster) (E : LinkmErr) (c : List Nat) (s : State)
    (hinv : s.currentAddress + s.bytesRemaining = 16) (h256 : c.length < 256) :
    (usbFunctionWrite D E (fun k => c.getD k 0) c.length s).1.currentAddress +
      (usbFunctionWrite D E (fun k => c.getD k 0) c.length s).1.bytesRemaining = 16 ∧
    (usbFunctionWrite D E (fun k => c.getD k 0) c.length s).1.bytesRemaining =
      s.bytesRemaining - c.length ∧
    (usbFunctionWrite D E (fun k => c.getD k 0) c.length s).2 =
      if s.bytesRemaining ≤ c.length then 1 else 0 := by
  by_cases hb : s.bytesRemaining = 0
  · rw [usbFunctionWrite_done D E _ _ s hb]
    have hle : s.bytesRemaining ≤ c.length := by omega
    refine ⟨hinv, by show s.bytesRemaining = _; omega, ?_⟩
    show 1 = _
    rw [if_pos hle]
  · by_cases hc : c.length < s.bytesRemaining
    · rw [usbFunctionWrite_short D E c s hinv hc]
      have hn : ¬ (s.bytesRemaining ≤ c.length) := by omega
      refine ⟨?_, rfl, ?_⟩
      · show s.currentAddress + c.length + (s.bytesRemaining - c.length) = 16
        omega
      · show 0 = _
        rw [if_neg hn]
    · have hc' : s.bytesRemaining ≤ c.length := by omega
      rw [usbFunctionWrite_complete D E c s hinv hb hc' h256]
      refine ⟨?_, ?_, ?_⟩
      · rw [handleMessage_bytesRemaining, handleMessage_currentAddress]
        rfl
      · rw [handleMessage_bytesRemaining]
        show 0 = _
        omega
      · show 1 = _
        rw [if_pos hc']

theorem writeChunks_rets (D : I2CMaster) (E : LinkmErr) (cs : List (List Nat)) :
    ∀ s : State, s.currentAddress + s.bytesRemaining = 16 →
      (∀ c ∈ cs, c.length < 256) →
      (writeChunks D E cs s).2 =
        (List.range cs.length).map
          (fun i => if s.bytesRemaining ≤ ((cs.take (i + 1)).map List.length).sum
            then 1 else 0) := by
  induction cs with
  | nil => intro s _ _; rfl
  | cons c cs ih =>
    intro s hinv h256
    have hc256 : c.length < 256 := h256 c (List.mem_cons_self _ _)
    have hcs256 : ∀ c' ∈ cs, c'.length < 256 :=
      fun c' hc' => h256 c' (List.mem_cons_of_mem _ hc')
    obtain ⟨h1, h2, h3⟩ := usbFunctionWrite_step D E c s hinv hc256
    simp only [writeChunks, List.length_cons, List.range_succ_eq_map, List.map_cons,
      List.map_map, ih _ h1 hcs256, h2, h3, List.take_succ_cons, List.sum_cons]
    refine congrArg₂ List.cons ?_ ?_
    · simp
    · apply List.map_congr_left
      intro i _
      simp only [Function.comp, Nat.succ_eq_add_one]
      by_cases h : s.bytesRemaining ≤ c.length + ((cs.take (i + 1)).map List.length).sum
      · have h' : s.bytesRemaining - c.length ≤ ((cs.take (i + 1)).map List.length).sum := by
          omega
        rw [if_pos h, if_pos h']
      · have h' : ¬ (s.bytesRemaining - c.length ≤
            ((cs.take (i + 1)).map List.length).sum) := by omega
        rw [if_neg h, if_neg h']


/-! ## The read session -/

theorem usbFunctionRead_eq (l : Nat) (s : State) (h256 : l < 256)
    (hinv : s.currentAddress + s.bytesRemaining = 16) :
    usbFunctionRead l s =
      ({ s with
         numWrites := 0
         currentAddress := s.currentAddress + min l s.bytesRemaining
         bytesRemaining := s.bytesRemaining - min l s.bytesRemaining },
       min l s.bytesRemaining,
       (List.range (min l s.bytesRemaining)).map (fun k => outbyte s (s.currentAddress + k))) := by
  have hm : l % 256 = l := Nat.mod_eq_of_lt h256
  have hlen : (if l > s.bytesRemaining then s.bytesRemaining else l) = min l s.bytesRemaining := by
    split_ifs <;> omega
  have h1 : (s.currentAddress + min l s.bytesRemaining) % 256 =
      s.currentAddress + min l s.bytesRemaining := Nat.mod_eq_of_lt (by omega)
  have h2 : (s.bytesRemaining - min l s.bytesRemaining) % 256 =
      s.bytesRemaining - min l s.bytesRemaining := Nat.mod_eq_of_lt (by omega)
  unfold usbFunctionRead
  simp only [hm, hlen, h1, h2]

theorem usbFunctionRead_len (l : Nat) (s : State) (h256 : l < 256) :
    (usbFunctionRead l s).2.1 = min l s.bytesRemaining ∧
    (usbFunctionRead l s).2.2.length = min l s.bytesRemaining := by
  have hm : l % 256 = l := Nat.mod_eq_of_lt h256
  have hlen : (if l > s.bytesRemaining then s.bytesRemaining else l) = min l s.bytesRemaining := by
    split_ifs <;> omega
  unfold usbFunctionRead
  simp only [hm, hlen, List.length_map, List.length_range, and_self]

theorem readChunks_spec (ls : List Nat) :
    ∀ s : State, s.currentAddress + s.bytesRemaining = 16 → (∀ l ∈ ls, l < 256) →
      (readChunks ls s).2.flatten =
        (List.range (min s.bytesRemaining ls.sum)).map
          (fun k => outbyte s (s.currentAddress + k)) ∧
      (readChunks ls s).1.currentAddress = s.currentAddress + min s.bytesRemaining ls.sum ∧
      (readChunks ls s).1.bytesRemaining = s.bytesRemaining - min s.bytesRemaining ls.sum ∧
      (readChunks ls s).1.outmsgbuf = s.outmsgbuf := by
  induction ls with
  | nil =>
    intro s _ _
    simp [readChunks]
  | cons l ls ih =>
    intro s hinv h256
    have hl : l < 256 := h256 l (List.mem_cons_self _ _)
    have hls : ∀ l' ∈ ls, l' < 256 := fun l' hl' => h256 l' (List.mem_cons_of_mem _ hl')
    obtain ⟨i1, i2, i3, i4⟩ := ih
      { s with
        numWrites := 0
        currentAddress := s.currentAddress + min l s.bytesRemaining
        bytesRemaining := s.bytesRemaining - min l s.bytesRemaining }
      (by simp only; omega) hls
    simp only [readChunks, usbFunctionRead_eq l s hl hinv, List.flatten_cons, List.sum_cons]
    refine ⟨?_, ?_, ?_, ?_⟩
    · rw [i1]
      have hsum : min s.bytesRemaining (l + ls.sum) =
          min l s.bytesRemaining + min (s.bytesRemaining - min l s.bytesRemaining) ls.sum := by
        omega
      rw [hsum, List.range_add, List.map_append, List.map_map]
      congr 1
      apply List.map_congr_left
      intro k _
      simp only [Function.comp, outbyte, Nat.add_assoc]
    · rw [i2]; simp only; omega
    · rw [i3]; simp only; omega
    · rw [i4]

theorem readChunks_idle (ls : List Nat) :
    ∀ s : State, s.bytesRemaining = 0 → s.currentAddress < 256 → s.numWrites = 0 →
      readChunks ls s = (s, ls.map (fun _ => [])) := by
  induction ls with
  | nil => intro s _ _ _; rfl
  | cons l ls ih =>
    intro s hb hc hn
    have hstep : usbFunctionRead l s = (s, 0, []) := by
      have hc' : s.currentAddress % 256 = s.currentAddress := Nat.mod_eq_of_lt hc
      unfold usbFunctionRead
      simp only [hb, Nat.sub_zero, Nat.zero_mod, Nat.add_zero, hc']
      have hlen : (if l % 256 > 0 then 0 else l % 256) = 0 := by
        split_ifs <;> omega
      simp only [hlen, List.range_zero, List.map_nil, Nat.add_zero, hc', Nat.sub_zero,
        Nat.zero_mod]
      cases s
      simp_all
    simp only [readChunks, hstep, ih s hb hc hn, List.map_cons]

theorem usbFunctionSetup_session (U : UsbDrv) (rq : UsbRequest) (s : State)
    (hclass : rq.bmRequestType &&& U.USBRQ_TYPE_MASK = U.USBRQ_TYPE_CLASS)
    (hreq : rq.bRequest = U.USBRQ_HID_GET_REPORT ∨ rq.bRequest = U.USBRQ_HID_SET_REPORT) :
    usbFunctionSetup U rq s =
      ({ s with bytesRemaining := REPORT_COUNT, currentAddress := 0 }, U.USB_NO_MSG) := by
  unfold usbFunctionSetup
  rw [if_pos hclass]
  rcases hreq with h | h
  · rw [if_pos h]
  · rw [if_pos h]
    split_ifs <;> rfl

/-! ## Claims C11 to C20 -/

/-- C11 fails on the code: the Read branch stores what `i2c_read` returns without
testing for the timeout value -1.  For the command `[0xDA, 3, 0, 2, 0x50]` on a bus whose
reads all time out, the first read times out and yet the second read is issued, the
timeout value is stored as 0xFF in response bytes 2 and 3, and the status stays Ok.  The
closing stop is issued. -/
theorem C11_read_timeout_not_detected :
    readTimeoutBus.i2c_read [Event.statusLedSet 1, Event.i2c_rep_start 0xA1] 1 = -1 ∧
    (handleMessage readTimeoutBus exampleErr (stateOf [0xDA, 3, 0, 2, 0x50] [])).trace =
      [Event.statusLedSet 1, Event.i2c_rep_start 0xA1, Event.i2c_read 1, Event.i2c_read 0,
       Event.statusLedSet 0, Event.i2c_stop] ∧
    outbyte (handleMessage readTimeoutBus exampleErr (stateOf [0xDA, 3, 0, 2, 0x50] [])) 1
      = LINKM_ERR_NONE ∧
    outbyte (handleMessage readTimeoutBus exampleErr (stateOf [0xDA, 3, 0, 2, 0x50] [])) 2
      = 0xFF ∧
    outbyte (handleMessage readTimeoutBus exampleErr (stateOf [0xDA, 3, 0, 2, 0x50] [])) 3
      = 0xFF := by
  decide

/-- C12: for a valid-sentinel Write command with address < 0x80 whose start in write
direction is acknowledged, the status is Ok and a stop is among the calls of the run if
and only if command byte 5 (holdForRead) is zero.  For 1 ≤ sendCount ≤ 12 the calls of
the run are exactly: the start, the writes of command bytes 5 .. 5+sendCount-2 in order,
and then the stop when byte 5 is zero, nothing more when it is not. -/
theorem C12_write_hold (D : I2CMaster) (E : LinkmErr) (s : State)
    (h0 : mbufp s 0 = START_BYTE) (hc : mbufp s 1 = LINKM_CMD_I2CWRITE)
    (ha : mbufp s 4 < 0x80)
    (hstart : D.i2c_start s.trace ((mbufp s 4 <<< 1) ||| D.I2C_WRITE) = 0) :
    outbyte (handleMessage D E s) 1 = LINKM_ERR_NONE ∧
    (Event.i2c_stop ∈ (handleMessage D E s).trace.drop s.trace.length ↔ mbufp s 5 = 0) ∧
    (1 ≤ mbufp s 2 → mbufp s 2 ≤ 12 →
      (handleMessage D E s).trace.drop s.trace.length =
        Event.i2c_start ((mbufp s 4 <<< 1) ||| D.I2C_WRITE) ::
          (List.range (mbufp s 2 - 1)).map (fun i => Event.i2c_write (mbufp s (5 + i))) ++
        (if mbufp s 5 = 0 then [Event.i2c_stop] else [])) := by
  have hs1 : D.i2c_start (enter s).trace ((mbufp s 4 <<< 1) ||| D.I2C_WRITE) ≠ 1 := by
    rw [enter_trace, hstart]; decide
  rw [handleMessage_write D E s h0 hc,
    handleI2CWrite_go D E _ _ _ ha (mbufp_lt s 2) hs1, sendIter]
  by_cases h5 : mbufp s 5 = 0
  · rw [if_pos h5]
    refine ⟨?_, ?_, ?_⟩
    · simp [outbyte, call, rd, enter_outmsgbuf, LINKM_ERR_NONE]
    · simp [call, rd, enter_trace, h5]
    · intro _ _
      simp [call, rd, enter_trace, h5]
  · rw [if_neg h5]
    refine ⟨?_, ?_, ?_⟩
    · simp [outbyte, call, rd, enter_outmsgbuf, LINKM_ERR_NONE]
    · simp [call, rd, enter_trace, h5]
    · intro _ _
      simp [call, rd, enter_trace, h5]

/-- C12 at the command `[0xDA, 2, 3, 0, 0x50, 1, 9]` (holdForRead = 1) on an
acknowledging bus: start, two writes, no stop. -/
theorem C12_write_hold_witness :
    (mbufp (stateOf [0xDA, 2, 3, 0, 0x50, 1, 9] []) 0 = START_BYTE ∧
     mbufp (stateOf [0xDA, 2, 3, 0, 0x50, 1, 9] []) 1 = LINKM_CMD_I2CWRITE) ∧
    outbyte (handleMessage ackBus exampleErr (stateOf [0xDA, 2, 3, 0, 0x50, 1, 9] [])) 1
      = LINKM_ERR_NONE ∧
    (Event.i2c_stop ∈ (handleMessage ackBus exampleErr
        (stateOf [0xDA, 2, 3, 0, 0x50, 1, 9] [])).trace.drop
          (stateOf [0xDA, 2, 3, 0, 0x50, 1, 9] []).trace.length ↔
      mbufp (stateOf [0xDA, 2, 3, 0, 0x50, 1, 9] []) 5 = 0) ∧
    (1 ≤ mbufp (stateOf [0xDA, 2, 3, 0, 0x50, 1, 9] []) 2 →
      mbufp (stateOf [0xDA, 2, 3, 0, 0x50, 1, 9] []) 2 ≤ 12 →
      (handleMessage ackBus exampleErr (stateOf [0xDA, 2, 3, 0, 0x50, 1, 9] [])).trace.drop
          (stateOf [0xDA, 2, 3, 0, 0x50, 1, 9] []).trace.length =
        [Event.i2c_start 0xA0, Event.i2c_write 1, Event.i2c_write 9]) :=
  ⟨by decide,
    C12_write_hold ackBus exampleErr (stateOf [0xDA, 2, 3, 0, 0x50, 1, 9] [])
      (by decide) (by decide) (by decide) (by decide)⟩

/-- C13: for a valid-sentinel Transact, Write with holdForRead = 0, Read or BusScan
command and every bus, if the run made a start or a repeated start then the last call
it made to the bus driver is the stop. -/
theorem C13_last_bus_call_is_stop (D : I2CMaster) (E : LinkmErr) (s : State)
    (h0 : mbufp s 0 = START_BYTE)
    (hc : mbufp s 1 = LINKM_CMD_I2CTRANS ∨
      (mbufp s 1 = LINKM_CMD_I2CWRITE ∧ mbufp s 5 = 0) ∨
      mbufp s 1 = LINKM_CMD_I2CREAD ∨ mbufp s 1 = LINKM_CMD_I2CSCAN)
    (hst : ∃ e ∈ (handleMessage D E s).trace.drop s.trace.length, e.isStart = true) :
    (((handleMessage D E s).trace.drop s.trace.length).filter Event.isBus).getLast? =
      some Event.i2c_stop := by
  apply last_bus_call_stop s.trace _ _ hst
  rcases hc with hc | ⟨hc, h5⟩ | hc | hc
  · rw [handleMessage_trans D E s h0 hc]
    have := handleI2CTrans_shape D E (mbufp s) (mbufp s 2) (mbufp s 3) (enter s)
    rwa [enter_trace] at this
  · rw [handleMessage_write D E s h0 hc]
    have := handleI2CWrite_shape D E (mbufp s) (mbufp s 2) (enter s) h5
    rwa [enter_trace] at this
  · rw [handleMessage_read D E s h0 hc]
    have := handleI2CRead_shape D E (mbufp s) (mbufp s 3) (enter s)
    rwa [enter_trace] at this
  · rw [handleMessage_scan D E s h0 hc]
    have := handleI2CScan_shape D E (mbufp s) (enter s) (mbufp_lt s 5)
    rwa [enter_trace] at this

/-- C13 at the Transact command `[0xDA, 1, 1, 3, 0x50]` on a bus whose last read times
out. -/
theorem C13_last_bus_call_is_stop_witness :
    (mbufp (stateOf [0xDA, 1, 1, 3, 0x50] []) 0 = START_BYTE ∧
     mbufp (stateOf [0xDA, 1, 1, 3, 0x50] []) 1 = LINKM_CMD_I2CTRANS) ∧
    (((handleMessage lastReadTimeoutBus exampleErr
        (stateOf [0xDA, 1, 1, 3, 0x50] [])).trace.drop
          (stateOf [0xDA, 1, 1, 3, 0x50] []).trace.length).filter Event.isBus).getLast? =
      some Event.i2c_stop :=
  ⟨by decide,
    C13_last_bus_call_is_stop lastReadTimeoutBus exampleErr (stateOf [0xDA, 1, 1, 3, 0x50] [])
      (by decide) (by decide) (by decide)⟩

/-- C14: after `usbFunctionSetup` with a class request SET_REPORT (cursor 0, remaining
16), for every sequence of chunks passed to `usbFunctionWrite`: while fewer than 16
bytes have been supplied the chunks are only copied into `msgbuf` and the cursor
advanced (no dispatch); once 16 bytes or more have been supplied the state is that of
one run of `handleMessage` on the command buffer holding the first 16 bytes, whatever
chunks follow; and the call number i returns 1 if the chunks up to and including it
total at least 16 bytes, and 0 otherwise. -/
theorem C14_write_session (U : UsbDrv) (D : I2CMaster) (E : LinkmErr) (s : State)
    (rq : UsbRequest)
    (hclass : rq.bmRequestType &&& U.USBRQ_TYPE_MASK = U.USBRQ_TYPE_CLASS)
    (hset : rq.bRequest = U.USBRQ_HID_SET_REPORT)
    (cs : List (List Nat)) (hlen : ∀ c ∈ cs, c.length < 256) :
    ((usbFunctionSetup U rq s).1.currentAddress = 0 ∧
     (usbFunctionSetup U rq s).1.bytesRemaining = 16) ∧
    ((cs.map List.length).sum < 16 →
      (writeChunks D E cs (usbFunctionSetup U rq s).1).1 =
        { s with
          msgbuf := copyIn s.msgbuf 0 cs.flatten
          currentAddress := (cs.map List.length).sum
          bytesRemaining := 16 - (cs.map List.length).sum }) ∧
    (16 ≤ (cs.map List.length).sum →
      (writeChunks D E cs (usbFunctionSetup U rq s).1).1 =
        handleMessage D E { s with
          msgbuf := copyIn s.msgbuf 0 (cs.flatten.take 16)
          currentAddress := 16
          bytesRemaining := 0 }) ∧
    (writeChunks D E cs (usbFunctionSetup U rq s).1).2 =
      (List.range cs.length).map
        (fun i => if 16 ≤ ((cs.take (i + 1)).map List.length).sum then 1 else 0) := by
  have e : (usbFunctionSetup U rq s).1 =
      { s with bytesRemaining := REPORT_COUNT, currentAddress := 0 } := by
    rw [usbFunctionSetup_session U rq s hclass (Or.inr hset)]
  rw [e]
  refine ⟨⟨rfl, rfl⟩, ?_, ?_, ?_⟩
  · intro hlt
    rw [writeChunks_short D E cs
      { s with bytesRemaining := REPORT_COUNT, currentAddress := 0 } rfl hlt]
    simp only [REPORT_COUNT, Nat.zero_add]
  · intro hle
    rw [writeChunks_complete D E cs
      { s with bytesRemaining := REPORT_COUNT, currentAddress := 0 } rfl
      (by show REPORT_COUNT ≠ 0; decide) hlen hle]
    rfl
  · rw [writeChunks_rets D E cs
      { s with bytesRemaining := REPORT_COUNT, currentAddress := 0 } rfl hlen]
    rfl

/-- C14 at three chunks of 8, 3 and 7 bytes followed by one of 2 bytes: the calls return
0, 0, 1, 1. -/
theorem C14_write_session_witness :
    (writeChunks ackBus exampleErr
        [[0xDA, 1, 3, 2, 0x50, 7, 8, 9], [1, 2, 3], [4, 5, 6, 7, 8, 9, 10], [1, 1]]
        (usbFunctionSetup exampleUsb setReport powerOn).1).2 = [0, 0, 1, 1] :=
  (C14_write_session exampleUsb ackBus exampleErr powerOn setReport (by decide) (by decide)
    [[0xDA, 1, 3, 2, 0x50, 7, 8, 9], [1, 2, 3], [4, 5, 6, 7, 8, 9, 10], [1, 1]]
    (by decide)).2.2.2

/-- C15: after `usbFunctionSetup` with a class request GET_REPORT (cursor 0, remaining
16): a call of `usbFunctionRead` with requested length l returns min(l, remaining) and
hands over that many bytes; for every sequence of calls with requested lengths `ls`, the
bytes handed over, concatenated, are the first min(16, sum of `ls`) bytes of the response
buffer, the cursor ends at min(16, sum of `ls`), and cursor + remaining is 16. -/
theorem C15_read_session (U : UsbDrv) (s : State) (rq : UsbRequest)
    (hclass : rq.bmRequestType &&& U.USBRQ_TYPE_MASK = U.USBRQ_TYPE_CLASS)
    (hget : rq.bRequest = U.USBRQ_HID_GET_REPORT)
    (ls : List Nat) (hl : ∀ l ∈ ls, l < 256) :
    ((usbFunctionSetup U rq s).1.currentAddress = 0 ∧
     (usbFunctionSetup U rq s).1.bytesRemaining = 16) ∧
    (∀ (x : State) (l : Nat), l < 256 →
      (usbFunctionRead l x).2.1 = min l x.bytesRemaining ∧
      (usbFunctionRead l x).2.2.length = min l x.bytesRemaining) ∧
    (readChunks ls (usbFunctionSetup U rq s).1).2.flatten =
      (List.range (min 16 ls.sum)).map (fun k => outbyte s k) ∧
    (readChunks ls (usbFunctionSetup U rq s).1).1.currentAddress = min 16 ls.sum ∧
    (readChunks ls (usbFunctionSetup U rq s).1).1.currentAddress +
      (readChunks ls (usbFunctionSetup U rq s).1).1.bytesRemaining = 16 := by
  rw [usbFunctionSetup_session U rq s hclass (Or.inl hget)]
  obtain ⟨h1, h2, h3, -⟩ := readChunks_spec ls
    { s with bytesRemaining := REPORT_COUNT, currentAddress := 0 } rfl hl
  refine ⟨⟨rfl, rfl⟩, fun x l hl256 => usbFunctionRead_len l x hl256, ?_, ?_, ?_⟩
  · rw [h1]
    simp only [REPORT_COUNT, Nat.zero_add, outbyte]
  · rw [h2]
    simp only [REPORT_COUNT, Nat.zero_add]
  · rw [h2, h3]
    simp only [REPORT_COUNT]
    omega

/-- C15 at the requested lengths 8, 5, 8 from the power-on state: 8, 5 and 3 bytes are
handed over, the 16 bytes of the response buffer in all. -/
theorem C15_read_session_witness :
    (readChunks [8, 5, 8] (usbFunctionSetup exampleUsb getReport powerOn).1).2.flatten =
      [0, 0, 0, 0, 0, 0, 0, 0, 0xde, 0xad, 0xbe, 0xef, 0x60, 0x61, 0x62, 0x63] ∧
    (readChunks [8, 5, 8] (usbFunctionSetup exampleUsb getReport powerOn).1).1.currentAddress
      = 16 :=
  ⟨(C15_read_session exampleUsb powerOn getReport (by decide) (by decide) [8, 5, 8]
      (by decide)).2.2.1,
   (C15_read_session exampleUsb powerOn getReport (by decide) (by decide) [8, 5, 8]
      (by decide)).2.2.2.1⟩

/-- C16: when `bytesRemaining` is 0, a call of `usbFunctionRead`, for any requested
length, returns 0 and hands over no byte, and leaves the response buffer, the cursor and
the remaining count unchanged (of the whole state only `numWrites` is set to 0); any
number of further calls hand over nothing and leave the state as it is. -/
theorem C16_drained_read_idempotent (s : State) (l : Nat)
    (hb : s.bytesRemaining = 0) (hc : s.currentAddress < 256) :
    (usbFunctionRead l s).2.1 = 0 ∧
    (usbFunctionRead l s).2.2 = [] ∧
    (usbFunctionRead l s).1 = { s with numWrites := 0 } ∧
    (usbFunctionRead l s).1.outmsgbuf = s.outmsgbuf ∧
    (usbFunctionRead l s).1.currentAddress = s.currentAddress ∧
    (usbFunctionRead l s).1.bytesRemaining = s.bytesRemaining ∧
    ∀ ls : List Nat,
      readChunks ls (usbFunctionRead l s).1 = ((usbFunctionRead l s).1, ls.map (fun _ => [])) := by
  have hc' : s.currentAddress % 256 = s.currentAddress := Nat.mod_eq_of_lt hc
  have hlen : (if l % 256 > 0 then 0 else l % 256) = 0 := by
    split_ifs <;> omega
  have hstep : usbFunctionRead l s = ({ s with numWrites := 0 }, 0, []) := by
    unfold usbFunctionRead
    simp only [hb, hlen, List.range_zero, List.map_nil, Nat.add_zero, hc', Nat.sub_zero,
      Nat.zero_mod]
  rw [hstep]
  refine ⟨rfl, rfl, rfl, rfl, rfl, rfl, ?_⟩
  intro ls
  exact readChunks_idle ls _ hb hc rfl

/-- C16 at the state reached from power-on by a read session drained with two calls. -/
theorem C16_drained_read_idempotent_witness :
    (usbFunctionRead 8
      (readChunks [8, 8] (usbFunctionSetup exampleUsb getReport powerOn).1).1).2.2 = [] ∧
    ∀ ls : List Nat,
      readChunks ls (usbFunctionRead 8
        (readChunks [8, 8] (usbFunctionSetup exampleUsb getReport powerOn).1).1).1 =
      ((usbFunctionRead 8
        (readChunks [8, 8] (usbFunctionSetup exampleUsb getReport powerOn).1).1).1,
       ls.map (fun _ => [])) :=
  ⟨(C16_drained_read_idempotent
      (readChunks [8, 8] (usbFunctionSetup exampleUsb getReport powerOn).1).1 8
      (by decide) (by decide)).2.1,
   (C16_drained_read_idempotent
      (readChunks [8, 8] (usbFunctionSetup exampleUsb getReport powerOn).1).1 8
      (by decide) (by decide)).2.2.2.2.2.2⟩

/-- C17, as stated, fails: from the power-on state, a read session begun before any write
session is served (drainChunk 8 hands over 8 bytes), and so is a read session begun
while a write session holds only 8 of its 16 bytes. -/
theorem C17_counterexample :
    ¬ (∀ (pre : List Transport) (l : Nat),
        (usbFunctionRead l (transportRun ackBus exampleErr pre powerOn)).2.2 ≠ [] →
        writeSessionDone pre = true) ∧
    ((usbFunctionRead 8
        (transportRun ackBus exampleErr [Transport.beginRead] powerOn)).2.2
      = [0, 0, 0, 0, 0, 0, 0, 0] ∧
     writeSessionDone [Transport.beginRead] = false) ∧
    ((usbFunctionRead 8
        (transportRun ackBus exampleErr
          [Transport.beginWrite, Transport.supplyChunk [0xDA, 1, 1, 0, 0x50, 0, 0, 0],
           Transport.beginRead] powerOn)).2.2
      = [0, 0, 0, 0, 0, 0, 0, 0] ∧
     writeSessionDone
        [Transport.beginWrite, Transport.supplyChunk [0xDA, 1, 1, 0, 0x50, 0, 0, 0],
         Transport.beginRead] = false) := by
  refine ⟨?_, by decide, by decide⟩
  intro h
  have h1 := h [Transport.beginRead] 8 (by decide)
  revert h1
  decide

/-- C17, amended: when a write session is begun, chunks totalling at least 16 bytes are
supplied, a read session is begun and drained with calls of requested lengths `ls`, the
bytes handed over, concatenated, are the first min(16, sum of `ls`) bytes of the response
buffer left by the run of `handleMessage` on the first 16 bytes supplied. -/
theorem C17_round_trip (U : UsbDrv) (D : I2CMaster) (E : LinkmErr) (s : State)
    (rqW rqR : UsbRequest)
    (hW : rqW.bmRequestType &&& U.USBRQ_TYPE_MASK = U.USBRQ_TYPE_CLASS ∧
      rqW.bRequest = U.USBRQ_HID_SET_REPORT)
    (hR : rqR.bmRequestType &&& U.USBRQ_TYPE_MASK = U.USBRQ_TYPE_CLASS ∧
      rqR.bRequest = U.USBRQ_HID_GET_REPORT)
    (cs : List (List Nat)) (hlen : ∀ c ∈ cs, c.length < 256)
    (htot : 16 ≤ (cs.map List.length).sum)
    (ls : List Nat) (hl : ∀ l ∈ ls, l < 256) :
    (readChunks ls (usbFunctionSetup U rqR
        (writeChunks D E cs (usbFunctionSetup U rqW s).1).1).1).2.flatten =
      (List.range (min 16 ls.sum)).map
        (fun k => outbyte (handleMessage D E { s with
          msgbuf := copyIn s.msgbuf 0 (cs.flatten.take 16)
          currentAddress := 16
          bytesRemaining := 0 }) k) := by
  have e : (usbFunctionSetup U rqW s).1 =
      { s with bytesRemaining := REPORT_COUNT, currentAddress := 0 } := by
    rw [usbFunctionSetup_session U rqW s hW.1 (Or.inr hW.2)]
  rw [e, writeChunks_complete D E cs
      { s with bytesRemaining := REPORT_COUNT, currentAddress := 0 } rfl
      (by show REPORT_COUNT ≠ 0; decide) hlen htot,
    usbFunctionSetup_session U rqR _ hR.1 (Or.inl hR.2)]
  obtain ⟨h1, -, -, -⟩ := readChunks_spec ls
    { handleMessage D E { s with
        msgbuf := copyIn s.msgbuf 0 (cs.flatten.take 16)
        currentAddress := 16
        bytesRemaining := 0 } with bytesRemaining := REPORT_COUNT, currentAddress := 0 }
    rfl hl
  have h2 : (readChunks ls
      { handleMessage D E { s with
          msgbuf := copyIn s.msgbuf 0 (cs.flatten.take 16)
          currentAddress := 16
          bytesRemaining := 0 } with bytesRemaining := REPORT_COUNT, currentAddress := 0 }
      ).2.flatten = _ := h1
  simp only [REPORT_COUNT, Nat.zero_add, outbyte] at h2
  exact h2

/-- C17, amended, from the power-on state: the Transact command
`[0xDA, 1, 3, 2, 0x50, 7, 8, 0, ...]` supplied in two chunks of 8 bytes on an
acknowledging bus, then read back in two calls; the response starts with counter 1,
status Ok and the two bytes read. -/
theorem C17_round_trip_witness :
    (readChunks [8, 8] (usbFunctionSetup exampleUsb getReport
        (writeChunks ackBus exampleErr
          [[0xDA, 1, 3, 2, 0x50, 7, 8, 0], [0, 0, 0, 0, 0, 0, 0, 0]]
          (usbFunctionSetup exampleUsb setReport powerOn).1).1).1).2.flatten =
      [1, 0, 0x42, 0x42, 0, 0, 0, 0, 0xde, 0xad, 0xbe, 0xef, 0x60, 0x61, 0x62, 0x63] :=
  C17_round_trip exampleUsb ackBus exampleErr powerOn setReport getReport
    (by decide) (by decide)
    [[0xDA, 1, 3, 2, 0x50, 7, 8, 0], [0, 0, 0, 0, 0, 0, 0, 0]] (by decide) (by decide)
    [8, 8] (by decide)

/-- C18: for a valid-sentinel command whose code byte is none of the enumerated codes,
`handleMessage` leaves the status Ok and the response bytes from offset 2 on unchanged,
calls no collaborator and leaves port B unchanged; the transaction counter is
incremented. -/
theorem C18_unknown_command (D : I2CMaster) (E : LinkmErr) (s : State)
    (h0 : mbufp s 0 = START_BYTE)
    (hc : mbufp s 1 ≠ LINKM_CMD_I2CTRANS ∧ mbufp s 1 ≠ LINKM_CMD_I2CWRITE ∧
      mbufp s 1 ≠ LINKM_CMD_I2CREAD ∧ mbufp s 1 ≠ LINKM_CMD_I2CSCAN ∧
      mbufp s 1 ≠ LINKM_CMD_I2CCONN ∧ mbufp s 1 ≠ LINKM_CMD_I2CINIT ∧
      mbufp s 1 ≠ LINKM_CMD_STATLED ∧ mbufp s 1 ≠ LINKM_CMD_STATLEDGET) :
    outbyte (handleMessage D E s) 1 = LINKM_ERR_NONE ∧
    (∀ j, 2 ≤ j → (handleMessage D E s).outmsgbuf j = s.outmsgbuf j) ∧
    (handleMessage D E s).trace = s.trace ∧
    (handleMessage D E s).PORTB = s.PORTB ∧
    outbyte (handleMessage D E s) 0 = (outbyte s 0 + 1) % 256 := by
  obtain ⟨h1, h2, h3, h4, h5, h6, -, -⟩ := hc
  rw [handleMessage_unknown D E s h0 h1 h2 h3 h4 h5 h6]
  refine ⟨?_, ?_, ?_, ?_, ?_⟩
  · simp [outbyte, enter_outmsgbuf, LINKM_ERR_NONE]
  · intro j hj
    have e1 : ¬ (j = 1) := by omega
    have e0 : ¬ (j = 0) := by omega
    simp [enter_outmsgbuf, e1, e0]
  · exact enter_trace s
  · exact enter_PORTB s
  · simp [outbyte, enter_outmsgbuf]

/-- C18 at the command `[0xDA, 0x42, 0, 0, 1]`. -/
theorem C18_unknown_command_witness :
    mbufp (stateOf [0xDA, 0x42, 0, 0, 1] [7, 5, 9]) 0 = START_BYTE ∧
    outbyte (handleMessage ackBus exampleErr (stateOf [0xDA, 0x42, 0, 0, 1] [7, 5, 9])) 1
      = LINKM_ERR_NONE ∧
    (∀ j, 2 ≤ j →
      (handleMessage ackBus exampleErr (stateOf [0xDA, 0x42, 0, 0, 1] [7, 5, 9])).outmsgbuf j
        = (stateOf [0xDA, 0x42, 0, 0, 1] [7, 5, 9]).outmsgbuf j) ∧
    (handleMessage ackBus exampleErr (stateOf [0xDA, 0x42, 0, 0, 1] [7, 5, 9])).trace
      = (stateOf [0xDA, 0x42, 0, 0, 1] [7, 5, 9]).trace ∧
    (handleMessage ackBus exampleErr (stateOf [0xDA, 0x42, 0, 0, 1] [7, 5, 9])).PORTB
      = (stateOf [0xDA, 0x42, 0, 0, 1] [7, 5, 9]).PORTB ∧
    outbyte (handleMessage ackBus exampleErr (stateOf [0xDA, 0x42, 0, 0, 1] [7, 5, 9])) 0
      = (outbyte (stateOf [0xDA, 0x42, 0, 0, 1] [7, 5, 9]) 0 + 1) % 256 :=
  ⟨by decide,
    C18_unknown_command ackBus exampleErr (stateOf [0xDA, 0x42, 0, 0, 1] [7, 5, 9])
      (by decide) (by decide)⟩

/-- C19 fails on the code: `cmd` is the 8-bit value of command byte 1, so it equals
neither SetIndicator (0x100) nor GetIndicator (0x101), whatever the command buffer; the
two indicator branches are never taken.  A buffer holding the low byte 0x00 of 0x100 and
payload 1 leaves the indicator alone (no call, port B unchanged); a buffer holding the
low byte 0x01 of 0x101 is run as a Transact command and response byte 2 is not stored. -/
theorem C19_indicator_codes_never_match (s : State) :
    (mbufp s 1 ≠ LINKM_CMD_STATLED ∧ mbufp s 1 ≠ LINKM_CMD_STATLEDGET) ∧
    ((handleMessage ackBus exampleErr (stateOf [0xDA, 0x00, 0, 0, 1] [])).trace = [] ∧
     (handleMessage ackBus exampleErr (stateOf [0xDA, 0x00, 0, 0, 1] [])).PORTB = 0) ∧
    ((handleMessage ackBus exampleErr (stateOf [0xDA, 0x01, 0, 0, 0] [0, 0, 9])).trace =
        [Event.i2c_start 0, Event.i2c_stop] ∧
     (handleMessage ackBus exampleErr (stateOf [0xDA, 0x01, 0, 0, 0] [0, 0, 9])).outWrites =
        [0, 1]) := by
  refine ⟨⟨?_, ?_⟩, by decide, by decide⟩
  · have := mbufp_lt s 1
    unfold LINKM_CMD_STATLED
    omega
  · have := mbufp_lt s 1
    unfold LINKM_CMD_STATLEDGET
    omega

/-- C20: for a valid-sentinel Transact or Write command with address < 0x80 whose start
in write direction is acknowledged, the byte writes of the run are those of command bytes
5 .. 5+sendCount-2; their number is max(sendCount - 1, 0), computed in signed
arithmetic, so no byte is written when sendCount = 0. -/
theorem C20_bytes_written (D : I2CMaster) (E : LinkmErr) (s : State)
    (h0 : mbufp s 0 = START_BYTE)
    (hc : mbufp s 1 = LINKM_CMD_I2CTRANS ∨ mbufp s 1 = LINKM_CMD_I2CWRITE)
    (ha : mbufp s 4 < 0x80)
    (hstart : D.i2c_start s.trace ((mbufp s 4 <<< 1) ||| D.I2C_WRITE) = 0) :
    ((handleMessage D E s).trace.drop s.trace.length).filter Event.isWrite =
      (List.range (mbufp s 2 - 1)).map (fun i => Event.i2c_write (mbufp s (5 + i))) ∧
    ((((handleMessage D E s).trace.drop s.trace.length).filter Event.isWrite).length : Int) =
      max ((mbufp s 2 : Int) - 1) 0 ∧
    (mbufp s 2 = 0 →
      ((handleMessage D E s).trace.drop s.trace.length).filter Event.isWrite = []) := by
  have hs1 : D.i2c_start (enter s).trace ((mbufp s 4 <<< 1) ||| D.I2C_WRITE) ≠ 1 := by
    rw [enter_trace, hstart]; decide
  have key : ((handleMessage D E s).trace.drop s.trace.length).filter Event.isWrite =
      (List.range (mbufp s 2 - 1)).map (fun i => Event.i2c_write (mbufp s (5 + i))) := by
    rcases hc with hc | hc
    · rw [handleMessage_trans D E s h0 hc]
      obtain ⟨z, hz, hw⟩ := handleI2CTrans_writes D E (mbufp s) (mbufp s 2) (mbufp s 3)
        (enter s) ha (mbufp_lt s 2) hs1
      have hzf : z.filter Event.isWrite = [] := by
        apply List.filter_eq_nil_iff.mpr
        intro e he
        rw [hw e he]
        decide
      rw [hz, enter_trace, List.append_assoc, List.drop_left, List.filter_append, hzf,
        List.filter_cons, filter_isWrite_writes]
      simp [Event.isWrite]
    · rw [handleMessage_write D E s h0 hc,
        handleI2CWrite_go D E _ _ _ ha (mbufp_lt s 2) hs1, sendIter]
      by_cases h5 : mbufp s 5 = 0
      · rw [if_pos h5]
        simp only [call, rd, enter_trace, List.append_assoc, List.drop_left,
          List.filter_append, List.filter_cons, filter_isWrite_writes, List.cons_append,
          List.nil_append]
        simp [Event.isWrite]
      · rw [if_neg h5]
        simp only [call, rd, enter_trace, List.append_assoc, List.drop_left,
          List.filter_append, List.filter_cons, filter_isWrite_writes, List.cons_append,
          List.nil_append]
        simp [Event.isWrite]
  refine ⟨key, ?_, ?_⟩
  · rw [key, List.length_map, List.length_range]
    omega
  · intro hz
    rw [key, hz]
    rfl

/-- C20 at the Transact command `[0xDA, 1, 0, 0, 0x50]` (sendCount = 0) on an
acknowledging bus: no byte is written. -/
theorem C20_bytes_written_witness :
    (mbufp (stateOf [0xDA, 1, 0, 0, 0x50] []) 0 = START_BYTE ∧
     mbufp (stateOf [0xDA, 1, 0, 0, 0x50] []) 2 = 0) ∧
    ((handleMessage ackBus exampleErr (stateOf [0xDA, 1, 0, 0, 0x50] [])).trace.drop
        (stateOf [0xDA, 1, 0, 0, 0x50] []).trace.length).filter Event.isWrite = [] :=
  ⟨by decide,
    (C20_bytes_written ackBus exampleErr (stateOf [0xDA, 1, 0, 0, 0x50] [])
      (by decide) (by decide) (by decide) (by decide)).2.2 (by decide)⟩

end LinkM
